import Mathlib

/-!
Verification of the aspire-to-coolify translation pipeline.

This file gives a shallow embedding, in Lean 4, of the core functions of the
repository: the tokenizer's argument splitter (src/parser/tokenizer.ts), the
database / container / application extractors (src/parser/extractors/*.ts),
the model assembler (src/parser/index.ts), the Coolify command generator
(src/generators/coolify/*.ts) and the deployment orchestrator
(src/api/deployer.ts).  JavaScript-specific behaviour (truthiness, `||`
defaulting, `parseInt`, `Map.set` overwrite, string `trim`) is modelled
explicitly by the helpers in the `JS` namespace.  Functions that can raise a
runtime `TypeError` in the source (indexing a missing argument) are embedded
with `Except String`; all other functions are total, as in the source.
-/

namespace JS

/-- The single-quote character (written via its code point). -/
def squote : Char := Char.ofNat 39

/-- The double-quote character (written via its code point). -/
def dquote : Char := Char.ofNat 34

/-- The opening-brace character (written via its code point). -/
def lbrace : Char := Char.ofNat 123

/-- The closing-brace character (written via its code point). -/
def rbrace : Char := Char.ofNat 125

/-- Strip leading and trailing whitespace from a character list. -/
def trimList (l : List Char) : List Char :=
  ((l.dropWhile Char.isWhitespace).reverse.dropWhile Char.isWhitespace).reverse

/-- JavaScript `String.prototype.trim`, over the character data of a string. -/
def jsTrim (s : String) : String := String.mk (trimList s.data)

/-- JavaScript truthiness of an optional string: `undefined` and `""` are falsy. -/
def optStrTruthy : Option String → Bool
  | none => false
  | some s => s != ""

/-- JavaScript `a || d` where `a` is a possibly-missing string and `d` a string. -/
def jsOrElseStr (o : Option String) (d : String) : String :=
  match o with
  | some s => if s = "" then d else s
  | none => d

/-- JavaScript `a || b` where both sides are possibly-missing strings. -/
def jsOrOpt (a b : Option String) : Option String :=
  match a with
  | some s => if s = "" then b else some s
  | none => b

/-- JavaScript `x || undefined` for a possibly-missing string. -/
def jsOrUndef (o : Option String) : Option String :=
  match o with
  | some s => if s = "" then none else some s
  | none => none

/-- JavaScript truthiness of an optional number (`undefined` and `0` are falsy). -/
def optIntTruthy : Option Int → Bool
  | none => false
  | some n => n != 0

/-- JavaScript truthiness of an optional boolean (`undefined` and `false` falsy). -/
def optBoolTruthy : Option Bool → Bool
  | some true => true
  | _ => false

/-- A JavaScript number that may be `NaN` (as produced by `parseInt`). -/
inductive JSNum where
  | num (val : Int)
  | nan
deriving DecidableEq, Repr

/-- JavaScript truthiness of a `JSNum` (`0` and `NaN` are falsy). -/
def JSNum.truthy : JSNum → Bool
  | .num v => v != 0
  | .nan => false

/-- JavaScript `toString` on a number (prints `NaN` for NaN). -/
def JSNum.toStr : JSNum → String
  | .num v => toString v
  | .nan => "NaN"

/-- JavaScript truthiness of an optional number value. -/
def optNumTruthy : Option JSNum → Bool
  | none => false
  | some v => v.truthy

/-- Numeric value of a list of decimal digits. -/
def digitsVal (l : List Char) : Nat :=
  l.foldl (fun acc c => acc * 10 + (c.toNat - 48)) 0

/-- JavaScript `parseInt(s, 10)`: skip whitespace, optional sign, leading digits;
`NaN` when no digits are found. -/
def js_parseInt (s : String) : JSNum :=
  let cs := s.data.dropWhile Char.isWhitespace
  let signAndRest : Bool × List Char :=
    match cs with
    | c :: rest =>
        if c = '-' then (true, rest)
        else if c = '+' then (false, rest)
        else (false, cs)
    | [] => (false, cs)
  let digits := signAndRest.2.takeWhile Char.isDigit
  if digits.isEmpty then .nan
  else .num (if signAndRest.1 then -(digitsVal digits : Int) else (digitsVal digits : Int))

/-- JavaScript `parseInt(s, 10) || undefined`: `NaN` and `0` become `undefined`. -/
def parseIntTruthyOpt (s : String) : Option Int :=
  match js_parseInt s with
  | .nan => none
  | .num v => if v = 0 then none else some v

/-- JavaScript `s.replace(/["<single-quote>]/g, "")`: remove all quote characters. -/
def stripQuotes (s : String) : String :=
  String.mk (s.data.filter (fun c => c != dquote && c != squote))

/-- JavaScript `Map.set` on an association list: overwrite an existing key in
place, otherwise append. -/
def mapSet (m : List (String × String)) (k v : String) : List (String × String) :=
  if m.any (fun p => p.1 == k) then
    m.map (fun p => if p.1 == k then (k, v) else p)
  else m ++ [(k, v)]

/-- JavaScript `Map.get` on an association list. -/
def mapGet (m : List (String × String)) (k : String) : Option String :=
  (m.find? (fun p => p.1 == k)).map (fun p => p.2)

end JS

namespace Tokenizer

open JS

/-- One chained method call of a fluent chain (tokenizer.ts `MethodCall`). -/
structure MethodCall where
  method : String
  args : List String
  rawArgs : String
deriving DecidableEq, Repr

/-- A fluent method chain (tokenizer.ts `FluentChain`). -/
structure FluentChain where
  variableName : Option String := none
  baseObject : Option String := none
  rootMethod : String
  rootArgs : List String := []
  name : String
  chainedMethods : List MethodCall := []
  raw : String := ""
deriving DecidableEq, Repr

/-- Scanner state shared by `parseArgs` and `findMatchingParen`: nesting depth,
whether we are inside a string literal, and the active quote character. -/
structure ScanState where
  depth : Int
  inString : Bool
  stringChar : Char
deriving DecidableEq, Repr

/-- Initial scanner state. -/
def initScan : ScanState := ⟨0, false, dquote⟩

/-- The string-literal boundary handling common to both scanners: an unescaped
quote either opens a string, closes it (when it matches the active quote
character), or is an inner quote of the other kind. -/
def strStep (prev : Option Char) (c : Char) (s : ScanState) : ScanState :=
  if (c = dquote ∨ c = squote) ∧ prev ≠ some '\\' then
    if s.inString = false then { s with inString := true, stringChar := c }
    else if c = s.stringChar then { s with inString := false }
    else s
  else s

/-- Depth tracking of `parseArgs`: parens, brackets and braces all count,
outside string literals. -/
def depthStepArgs (c : Char) (s : ScanState) : ScanState :=
  if s.inString = false then
    if c = '(' ∨ c = '[' ∨ c = lbrace then { s with depth := s.depth + 1 }
    else if c = ')' ∨ c = ']' ∨ c = rbrace then { s with depth := s.depth - 1 }
    else s
  else s

/-- One `parseArgs` scanner step: string boundaries first, then depth. -/
def argScanStep (prev : Option Char) (c : Char) (s : ScanState) : ScanState :=
  depthStepArgs c (strStep prev c s)

/-- The character loop of `parseArgs` (tokenizer.ts): split on commas at depth
zero outside strings, trimming each piece; the final piece is kept only when
its trim is non-blank. -/
def parseArgsLoop : Option Char → ScanState → List Char → List Char → List String → List String
  | _, _, [], current, args =>
      if jsTrim (String.mk current) = "" then args
      else args ++ [jsTrim (String.mk current)]
  | prev, s, c :: rest, current, args =>
      let s2 := argScanStep prev c s
      if c = ',' ∧ s2.depth = 0 ∧ s2.inString = false then
        parseArgsLoop (some c) s2 rest [] (args ++ [jsTrim (String.mk current)])
      else
        parseArgsLoop (some c) s2 rest (current ++ [c]) args

/-- `parseArgs` (tokenizer.ts): parse an argument blob into individual
arguments. An all-blank blob yields no arguments. -/
def parseArgs (argsStr : String) : List String :=
  if jsTrim argsStr = "" then []
  else parseArgsLoop none initScan argsStr.data [] []

/-- Specification-side splitter for the argument blob, following the spec's
words: the blob is cut exactly at the commas that sit at nesting depth zero
and outside string literals; segments are kept raw (untrimmed, possibly
empty). -/
def specTopSegs : Option Char → ScanState → List Char → List Char → List String
  | _, _, [], cur => [String.mk cur]
  | p, s, c :: rest, cur =>
      let s2 := argScanStep p c s
      if c = ',' ∧ s2.depth = 0 ∧ s2.inString = false then
        String.mk cur :: specTopSegs (some c) s2 rest []
      else specTopSegs (some c) s2 rest (cur ++ [c])

/-- The top-level comma-separated segments of an argument blob (spec side). -/
def specTopLevelArgs (blob : String) : List String :=
  specTopSegs none initScan blob.data []

/-- Number of splitting commas (depth zero, outside strings) in the blob. -/
def countTopCommas : Option Char → ScanState → List Char → Nat
  | _, _, [] => 0
  | p, s, c :: rest =>
      let s2 := argScanStep p c s
      (if c = ',' ∧ s2.depth = 0 ∧ s2.inString = false then 1 else 0) +
        countTopCommas (some c) s2 rest

/-- Run the `parseArgs` scanner over a whole blob, yielding the final state. -/
def scanArgString : Option Char → ScanState → List Char → ScanState
  | _, s, [] => s
  | p, s, c :: rest => scanArgString (some c) (argScanStep p c s) rest

/-- A blob is balanced when the scanner ends at depth zero, outside any string
literal. -/
def balancedArgString (blob : String) : Prop :=
  (scanArgString none initScan blob.data).depth = 0 ∧
    (scanArgString none initScan blob.data).inString = false

instance (blob : String) : Decidable (balancedArgString blob) := by
  unfold balancedArgString; infer_instance

/-- Drop the final element of a segment list when it is blank (the `parseArgs`
loop only keeps a non-blank final piece). -/
def dropLastBlank : List String → List String
  | [] => []
  | [x] => if x = "" then [] else [x]
  | x :: y :: rest => x :: dropLastBlank (y :: rest)

/-- Depth tracking of `findMatchingParen`: only parentheses count. -/
def depthStepParen (c : Char) (s : ScanState) : ScanState :=
  if s.inString = false then
    if c = '(' then { s with depth := s.depth + 1 }
    else if c = ')' then { s with depth := s.depth - 1 }
    else s
  else s

/-- The character loop of `findMatchingParen` (tokenizer.ts / database.ts):
return the index of the closing parenthesis balancing the opening one. -/
def findParenLoop : Option Char → ScanState → Nat → List Char → Option Nat
  | _, _, _, [] => none
  | prev, s, i, c :: rest =>
      let s1 := strStep prev c s
      let s2 := depthStepParen c s1
      if s1.inString = false ∧ c = ')' ∧ s2.depth = 0 then some i
      else findParenLoop (some c) s2 (i + 1) rest

/-- `findMatchingParen` (database.ts): find the matching closing paren for an
opening paren at `openIndex`, or `none`. -/
def findMatchingParen (source : List Char) (openIndex : Nat) : Option Nat :=
  let prev := if openIndex = 0 then none else source.get? (openIndex - 1)
  findParenLoop prev ⟨0, false, dquote⟩ openIndex (source.drop openIndex)

/-- Character loop of `extractFirstStringArg`: leftmost regex match of a quote,
one or more non-quote characters, and a closing quote (of either kind). -/
def firstStringArgL : List Char → Option String
  | [] => none
  | c :: rest =>
      if c = dquote ∨ c = squote then
        let content := rest.takeWhile (fun d => d != dquote && d != squote)
        if content.length > 0 ∧ rest.drop content.length ≠ [] then
          some (String.mk content)
        else firstStringArgL rest
      else firstStringArgL rest

/-- `extractFirstStringArg` (tokenizer.ts): first quoted-string content in a
raw argument blob, or `none`. -/
def extractFirstStringArg (argsStr : String) : Option String :=
  firstStringArgL argsStr.data

/-- A word character of the regexes (`\w`): ASCII letter, digit or underscore. -/
def isWordChar (c : Char) : Bool := c.isAlphanum || c = '_'

/-- Regex tail `["<q>]?([^"<q>,]+)` tried at one start position: an optional
opening quote followed by one or more characters that are not quotes or
commas. -/
def namedValAt (cs : List Char) : Option String :=
  match cs with
  | [] => none
  | q :: r5 =>
      if q = dquote ∨ q = squote then
        let content := r5.takeWhile (fun d => d != dquote && d != squote && d != ',')
        if content = [] then none else some (String.mk content)
      else
        let content := cs.takeWhile (fun d => d != dquote && d != squote && d != ',')
        if content = [] then none else some (String.mk content)

/-- Backtracking over the `\s*` preceding the optional quote: try the longest
whitespace run first, then shorter ones. -/
def namedValTry (r3 : List Char) : Nat → Option String
  | 0 => namedValAt r3
  | k + 1 =>
      match namedValAt (r3.drop (k + 1)) with
      | some v => some v
      | none => namedValTry r3 k

/-- Match the value part of `name: value` after the colon. -/
def namedValMatch (r3 : List Char) : Option String :=
  namedValTry r3 (r3.takeWhile Char.isWhitespace).length

/-- Try to match the `(\w+)\s*:\s*` head of a named argument at this position. -/
def matchNamedAt (l : List Char) : Option (String × String) :=
  let key := l.takeWhile isWordChar
  if key = [] then none
  else
    match (l.drop key.length).dropWhile Char.isWhitespace with
    | ':' :: r3 => (namedValMatch r3).map (fun v => (String.mk key, v))
    | _ => none

/-- Leftmost match of the named-argument regex in one argument string. -/
def findNamedArg : List Char → Option (String × String)
  | [] => none
  | c :: rest =>
      match matchNamedAt (c :: rest) with
      | some kv => some kv
      | none => findNamedArg rest

/-- `extractNamedArgs` (tokenizer.ts): collect `name: value` pairs from an
argument list into a record (later keys overwrite earlier ones). -/
def extractNamedArgs (args : List String) : List (String × String) :=
  args.foldl
    (fun result arg =>
      match findNamedArg arg.data with
      | some kv => JS.mapSet result kv.1 kv.2
      | none => result)
    []

end Tokenizer

namespace Aspire

open JS

/-- An environment entry (models/aspire.ts `EnvironmentVariable`); the
`isExpression` marker is absent on database entries. -/
structure EnvironmentVariable where
  key : String
  value : String
  isExpression : Option Bool := none
deriving DecidableEq, Repr

/-- A volume mount (models/aspire.ts `Volume`). -/
structure Volume where
  name : Option String := none
  mountPath : Option String := none
  isData : Bool
deriving DecidableEq, Repr

/-- An endpoint (models/aspire.ts `Endpoint`); ports are JavaScript numbers,
which may be `NaN` when parsed from a malformed named argument. -/
structure Endpoint where
  port : Option JSNum := none
  targetPort : Option JSNum := none
  protocol : String
  isExternal : Bool
  envVariable : Option String := none
  name : Option String := none
deriving DecidableEq, Repr

/-- A data store record (models/aspire.ts `Database`); the kind is kept as a
string, as in the source, so that unrecognized kinds flow through. -/
structure Database where
  name : String
  type : String
  variableName : Option String := none
  serverName : Option String := none
  serverVariableName : Option String := none
  image : Option String := none
  imageTag : Option String := none
  hostPort : Option Int := none
  hasDataVolume : Bool
  environment : List EnvironmentVariable
deriving DecidableEq, Repr

/-- A network service record (models/aspire.ts `Service`). -/
structure Service where
  name : String
  type : String
  variableName : Option String := none
  image : Option String := none
  imageTag : Option String := none
  hostPort : Option Int := none
  environment : List EnvironmentVariable := []
  volumes : List Volume := []
  endpoints : List Endpoint := []
  references : List String := []
deriving DecidableEq, Repr

/-- A storage service record (models/aspire.ts `StorageService`). -/
structure StorageService where
  name : String
  type : String
  variableName : Option String := none
  image : Option String := none
  imageTag : Option String := none
  hostPort : Option Int := none
  environment : List EnvironmentVariable := []
  volumes : List Volume := []
deriving DecidableEq, Repr

/-- A deployable application record (models/aspire.ts `Application`). -/
structure Application where
  name : String
  type : String
  variableName : Option String := none
  sourcePath : Option String := none
  project : Option String := none
  buildPack : String
  environment : List EnvironmentVariable := []
  endpoints : List Endpoint := []
  references : List String := []
  publishMode : Option String := none
  waitFor : Option (List String) := none
  runScript : Option String := none
  npmInstallCommand : Option String := none
deriving DecidableEq, Repr

/-- A reference edge (models/aspire.ts `Reference`). -/
structure Reference where
  from_ : String
  to_ : String
  connectionStringEnv : Option String := none
deriving DecidableEq, Repr

/-- The assembled application model (models/aspire.ts `AspireApp`). -/
structure AspireApp where
  services : List Service := []
  databases : List Database := []
  storage : List StorageService := []
  applications : List Application := []
  references : List Reference := []
deriving DecidableEq, Repr

/-- `createEmptyAspireApp` (models/aspire.ts). -/
def createEmptyAspireApp : AspireApp := {}

end Aspire

namespace DatabaseExtractor

open JS Tokenizer Aspire

/-- The root-method-to-kind table `DATABASE_METHODS` (extractors/database.ts). -/
def DATABASE_METHODS (m : String) : Option String :=
  if m = "AddPostgres" then some "postgres"
  else if m = "AddAzurePostgresFlexibleServer" then some "postgres"
  else if m = "AddPostgresContainer" then some "postgres"
  else if m = "AddSqlServer" then some "sqlserver"
  else if m = "AddAzureSqlServer" then some "sqlserver"
  else if m = "AddMySql" then some "mysql"
  else if m = "AddMySqlContainer" then some "mysql"
  else if m = "AddMongoDB" then some "mongodb"
  else if m = "AddMongoDBContainer" then some "mongodb"
  else if m = "AddRedis" then some "redis"
  else if m = "AddRedisContainer" then some "redis"
  else none

/-- `isDatabaseChain` (extractors/database.ts). -/
def isDatabaseChain (chain : FluentChain) : Bool :=
  (DATABASE_METHODS chain.rootMethod).isSome

/-- `extractEnvironment` (extractors/database.ts): needs at least two
arguments; key and value take the first quoted content, falling back to the
argument with quotes stripped. -/
def extractEnvironment (args : List String) : Option EnvironmentVariable :=
  if args.length < 2 then none
  else
    let a0 := (args.get? 0).getD ""
    let a1 := (args.get? 1).getD ""
    some
      { key := jsOrElseStr (extractFirstStringArg a0) (stripQuotes a0),
        value := jsOrElseStr (extractFirstStringArg a1) (stripQuotes a1) }

/-- A nested method call recovered from a `RunAsContainer` lambda body. -/
structure NestedCall where
  method : String
  args : List String
deriving DecidableEq, Repr

/-- Length of the leading `\w` run. -/
def wordRun (l : List Char) : Nat := (l.takeWhile isWordChar).length

/-- Length of the leading whitespace run. -/
def wsRun (l : List Char) : Nat := (l.takeWhile Char.isWhitespace).length

/-- Match the lambda-head regex `\w+\s*=>\s*\w+\s*` at this position,
returning the length of the match. -/
def lambdaHeadLen (l : List Char) : Option Nat :=
  let w1 := wordRun l
  if w1 = 0 then none
  else
    let r1 := l.drop w1
    let s1 := wsRun r1
    match r1.drop s1 with
    | '=' :: '>' :: r3 =>
        let s2 := wsRun r3
        let r4 := r3.drop s2
        let w2 := wordRun r4
        if w2 = 0 then none
        else some (w1 + s1 + 2 + s2 + w2 + wsRun (r4.drop w2))
    | _ => none

/-- Leftmost match of the lambda head, returning the absolute position just
after the match. -/
def findLambdaEnd : List Char → Nat → Option Nat
  | [], _ => none
  | l@(_ :: rest), i =>
      match lambdaHeadLen l with
      | some len => some (i + len)
      | none => findLambdaEnd rest (i + 1)

/-- Match the chained-call head regex `\s*\.\s*(\w+)\s*\(` at this position,
returning the method name and the length up to and including the opening
paren. -/
def methodHeadLen (l : List Char) : Option (String × Nat) :=
  let s0 := wsRun l
  match l.drop s0 with
  | '.' :: r1 =>
      let s1 := wsRun r1
      let r2 := r1.drop s1
      let w := r2.takeWhile isWordChar
      if w = [] then none
      else
        let r3 := r2.drop w.length
        let s2 := wsRun r3
        match r3.drop s2 with
        | '(' :: _ => some (String.mk w, s0 + 1 + s1 + w.length + s2 + 1)
        | _ => none
  | _ => none

/-- The scanning loop of `extractNestedMethods` (extractors/database.ts):
repeatedly take a `.Method(` head and its balanced argument list; arguments
are split on every comma, trimmed, and blank pieces dropped. -/
def nestedLoop (src : List Char) : Nat → Nat → List NestedCall → List NestedCall
  | 0, _, acc => acc
  | fuel + 1, pos, acc =>
      match methodHeadLen (src.drop pos) with
      | none => acc
      | some (mname, len) =>
          let argsStart := pos + len
          match findMatchingParen src (argsStart - 1) with
          | none => acc
          | some argsEnd =>
              let rawArgs := (src.drop argsStart).take (argsEnd - argsStart)
              let call : NestedCall :=
                { method := mname,
                  args := (((String.mk rawArgs).splitOn ",").map jsTrim).filter
                    (fun a => a != "") }
              nestedLoop src fuel (argsEnd + 1) (acc ++ [call])

/-- `extractNestedMethods` (extractors/database.ts): recover the fluent calls
of a `RunAsContainer` lambda body. -/
def extractNestedMethods (argsStr : String) : List NestedCall :=
  match findLambdaEnd argsStr.data 0 with
  | none => []
  | some pos => nestedLoop argsStr.data (argsStr.data.length + 1) pos []

/-- `processNestedMethod` (extractors/database.ts): replay one nested call on
the record.  Indexing a missing first argument of `WithImage`/`WithImageTag`
raises a `TypeError` in the source, embedded as `Except.error`. -/
def processNestedMethod (database : Database) (nested : NestedCall) :
    Except String Database :=
  if nested.method = "WithImage" then
    match nested.args.head? with
    | none => .error "TypeError"
    | some a0 =>
        .ok { database with
          image := some (jsOrElseStr (extractFirstStringArg a0) (stripQuotes a0)) }
  else if nested.method = "WithImageTag" then
    match nested.args.head? with
    | none => .error "TypeError"
    | some a0 =>
        .ok { database with
          imageTag := some (jsOrElseStr (extractFirstStringArg a0) (stripQuotes a0)) }
  else if nested.method = "WithHostPort" then
    match nested.args.head? with
    | none => .ok { database with hostPort := none }
    | some a0 => .ok { database with hostPort := parseIntTruthyOpt a0 }
  else if nested.method = "WithDataVolume" then
    .ok { database with hasDataVolume := true }
  else .ok database

/-- Replay a list of nested calls in order. -/
def processNestedList (database : Database) : List NestedCall → Except String Database
  | [] => .ok database
  | n :: ns =>
      match processNestedMethod database n with
      | .error e => .error e
      | .ok db2 => processNestedList db2 ns

/-- One iteration of the chained-method loop of `extractDatabase`
(extractors/database.ts). -/
def applyMethod (database : Database) (method : MethodCall) : Except String Database :=
  if method.method = "WithImage" then
    .ok { database with image := jsOrUndef (extractFirstStringArg method.rawArgs) }
  else if method.method = "WithImageTag" then
    .ok { database with imageTag := jsOrUndef (extractFirstStringArg method.rawArgs) }
  else if method.method = "WithHostPort" then
    match method.args.head? with
    | some portArg =>
        if portArg = "" then .ok database
        else .ok { database with hostPort := parseIntTruthyOpt portArg }
    | none => .ok database
  else if method.method = "WithDataVolume" then
    .ok { database with hasDataVolume := true }
  else if method.method = "WithEnvironment" then
    match extractEnvironment method.args with
    | some env => .ok { database with environment := database.environment ++ [env] }
    | none => .ok database
  else if method.method = "RunAsContainer" then
    processNestedList database (extractNestedMethods method.rawArgs)
  else .ok database

/-- The chained-method loop of `extractDatabase`. -/
def processMethods (database : Database) : List MethodCall → Except String Database
  | [] => .ok database
  | m :: ms =>
      match applyMethod database m with
      | .error e => .error e
      | .ok db2 => processMethods db2 ms

/-- `extractDatabase` (extractors/database.ts): seed the record from the
root-method table and replay the chained methods. -/
def extractDatabase (chain : FluentChain) : Except String Database :=
  processMethods
    { name := chain.name,
      type := (DATABASE_METHODS chain.rootMethod).getD "postgres",
      variableName := chain.variableName,
      hasDataVolume := false,
      environment := [] }
    chain.chainedMethods

/-- The per-chain body of `extractChildDatabases` (extractors/database.ts):
an `AddDatabase` chain yields a child record inheriting the parent server's
extracted image, tag, host port, volume flag and environment. -/
def childDbFor (chains : List FluentChain) (chain : FluentChain) :
    Except String (Option Database) :=
  if chain.rootMethod = "AddDatabase" then
    match chains.find? (fun c => c.variableName == chain.baseObject) with
    | some parentChain =>
        match extractDatabase parentChain with
        | .error e => .error e
        | .ok parentDb =>
            .ok (some
              { name := chain.name,
                type := (DATABASE_METHODS parentChain.rootMethod).getD "postgres",
                variableName := chain.variableName,
                serverName := some parentChain.name,
                serverVariableName := chain.baseObject,
                image := parentDb.image,
                imageTag := parentDb.imageTag,
                hostPort := parentDb.hostPort,
                hasDataVolume := parentDb.hasDataVolume,
                environment := parentDb.environment })
    | none =>
        .ok (some
          { name := chain.name,
            type := "postgres",
            variableName := chain.variableName,
            serverName := none,
            serverVariableName := chain.baseObject,
            hasDataVolume := false,
            environment := [] })
  else .ok none

/-- The chain loop of `extractChildDatabases`. -/
def extractChildDatabasesGo (chains : List FluentChain) :
    List FluentChain → Except String (List Database)
  | [] => .ok []
  | c :: rest =>
      match childDbFor chains c with
      | .error e => .error e
      | .ok none => extractChildDatabasesGo chains rest
      | .ok (some db) =>
          match extractChildDatabasesGo chains rest with
          | .error e => .error e
          | .ok dbs => .ok (db :: dbs)

/-- `extractChildDatabases` (extractors/database.ts): collect the child
databases of all `AddDatabase` chains. -/
def extractChildDatabases (chains : List FluentChain) : Except String (List Database) :=
  extractChildDatabasesGo chains chains

end DatabaseExtractor

namespace ContainerExtractor

open JS Tokenizer Aspire

/-- The root-method-to-kind table `CONTAINER_METHODS`
(extractors/container.ts). -/
def CONTAINER_METHODS (m : String) : Option String :=
  if m = "AddMinioContainer" then some "minio"
  else if m = "AddMinio" then some "minio"
  else if m = "AddRabbitMQ" then some "rabbitmq"
  else if m = "AddRabbitMQContainer" then some "rabbitmq"
  else if m = "AddKeycloak" then some "keycloak"
  else if m = "AddKeycloakContainer" then some "keycloak"
  else if m = "AddSeq" then some "seq"
  else if m = "AddSeqContainer" then some "seq"
  else if m = "AddMailDev" then some "maildev"
  else if m = "AddMailDevContainer" then some "maildev"
  else if m = "AddKafka" then some "kafka"
  else if m = "AddKafkaContainer" then some "kafka"
  else if m = "AddElasticsearch" then some "elasticsearch"
  else if m = "AddElasticsearchContainer" then some "elasticsearch"
  else if m = "AddContainer" then some "custom"
  else none

/-- `isContainerChain` (extractors/container.ts). -/
def isContainerChain (chain : FluentChain) : Bool :=
  (CONTAINER_METHODS chain.rootMethod).isSome

/-- `extractEnvironment` (extractors/container.ts): the value is an
expression when it carries no quote of either kind. -/
def extractEnvironment (args : List String) : Option EnvironmentVariable :=
  if args.length < 2 then none
  else
    let a0 := (args.get? 0).getD ""
    let a1 := (args.get? 1).getD ""
    some
      { key := jsOrElseStr (extractFirstStringArg a0) (stripQuotes a0),
        value := jsOrElseStr (extractFirstStringArg a1) (stripQuotes a1),
        isExpression := some
          (!(a1.data.any (fun c => c = dquote)) && !(a1.data.any (fun c => c = squote))) }

/-- `extractHttpEndpoint` (extractors/container.ts): positional port when the
first argument has no colon and parses to a number, then named arguments
`port`, `targetPort`, `name`, `env`, `isExternal`. -/
def extractHttpEndpoint (args : List String) : Endpoint :=
  let namedArgs := extractNamedArgs args
  let e0 : Endpoint := { protocol := "http", isExternal := false }
  let e1 :=
    match args.head? with
    | some a0 =>
        if a0 != "" && !(a0.data.any (fun c => c = ':')) then
          match js_parseInt a0 with
          | .num v => { e0 with port := some (.num v) }
          | .nan => e0
        else e0
    | none => e0
  let e2 :=
    match mapGet namedArgs "port" with
    | some v => if v != "" then { e1 with port := some (js_parseInt v) } else e1
    | none => e1
  let e3 :=
    match mapGet namedArgs "targetPort" with
    | some v => if v != "" then { e2 with targetPort := some (js_parseInt v) } else e2
    | none => e2
  let e4 :=
    match mapGet namedArgs "name" with
    | some v => if v != "" then { e3 with name := some v } else e3
    | none => e3
  let e5 :=
    match mapGet namedArgs "env" with
    | some v => if v != "" then { e4 with envVariable := some v } else e4
    | none => e4
  match mapGet namedArgs "isExternal" with
  | some v => if v = "true" then { e5 with isExternal := true } else e5
  | none => e5

/-- One iteration of the chained-method loop of `extractContainer`. -/
def applyMethod (service : Service) (method : MethodCall) : Service :=
  if method.method = "WithImage" then
    { service with image := jsOrUndef (extractFirstStringArg method.rawArgs) }
  else if method.method = "WithImageTag" then
    { service with imageTag := jsOrUndef (extractFirstStringArg method.rawArgs) }
  else if method.method = "WithHostPort" then
    match method.args.head? with
    | some portArg =>
        if portArg = "" then service
        else { service with hostPort := parseIntTruthyOpt portArg }
    | none => service
  else if method.method = "WithEnvironment" then
    match extractEnvironment method.args with
    | some env => { service with environment := service.environment ++ [env] }
    | none => service
  else if method.method = "WithDataVolume" then
    { service with volumes := service.volumes ++
        [{ isData := true, mountPath := jsOrUndef (extractFirstStringArg method.rawArgs) }] }
  else if method.method = "WithBindMount" then
    if method.args.length ≥ 2 then
      let a0 := (method.args.get? 0).getD ""
      let a1 := (method.args.get? 1).getD ""
      { service with volumes := service.volumes ++
          [{ isData := false,
             name := some (jsOrElseStr (extractFirstStringArg a0) (stripQuotes a0)),
             mountPath := some (jsOrElseStr (extractFirstStringArg a1) (stripQuotes a1)) }] }
    else service
  else if method.method = "WithHttpEndpoint" then
    { service with endpoints := service.endpoints ++ [extractHttpEndpoint method.args] }
  else if method.method = "WithHttpsEndpoint" then
    { service with endpoints := service.endpoints ++
        [{ extractHttpEndpoint method.args with protocol := "https" }] }
  else if method.method = "WithExternalHttpEndpoints" then
    { service with endpoints := service.endpoints ++
        [{ protocol := "http", isExternal := true }] }
  else if method.method = "WithReference" then
    let refName := jsOrOpt (extractFirstStringArg method.rawArgs)
      ((method.args.head?).map stripQuotes)
    match refName with
    | some r => if r != "" then { service with references := service.references ++ [r] }
        else service
    | none => service
  else service

/-- `extractContainer` (extractors/container.ts): seed from the root-method
table (image taken from the second argument for `AddContainer`) and replay
the chained methods. -/
def extractContainer (chain : FluentChain) : Service :=
  let s0 : Service :=
    { name := chain.name,
      type := (CONTAINER_METHODS chain.rootMethod).getD "custom",
      variableName := chain.variableName }
  let s1 :=
    if chain.rootMethod = "AddContainer" ∧ chain.rootArgs.length > 1 then
      let a1 := (chain.rootArgs.get? 1).getD ""
      { s0 with image := some (jsOrElseStr (extractFirstStringArg a1) (stripQuotes a1)) }
    else s0
  chain.chainedMethods.foldl applyMethod s1

end ContainerExtractor

namespace ApplicationExtractor

open JS Tokenizer Aspire

/-- The root-method table `APPLICATION_METHODS` (extractors/application.ts),
mapping to an application kind and a build pack. -/
def APPLICATION_METHODS (m : String) : Option (String × String) :=
  if m = "AddNpmApp" then some ("npm", "nixpacks")
  else if m = "AddNodeApp" then some ("npm", "nixpacks")
  else if m = "AddJavaScriptApp" then some ("npm", "nixpacks")
  else if m = "AddProject" then some ("project", "dockerfile")
  else if m = "AddDockerfile" then some ("dockerfile", "dockerfile")
  else if m = "AddContainer" then some ("container", "dockerfile")
  else if m = "AddExecutable" then some ("executable", "dockerfile")
  else none

/-- `isApplicationChain` (extractors/application.ts). -/
def isApplicationChain (chain : FluentChain) : Bool :=
  (APPLICATION_METHODS chain.rootMethod).isSome

/-- `extractEnvironment` (extractors/application.ts): a quoted value is a
literal; an unquoted value is kept trimmed and flagged as an expression. -/
def extractEnvironment (args : List String) : Option EnvironmentVariable :=
  if args.length < 2 then none
  else
    let a0 := (args.get? 0).getD ""
    let a1 := (args.get? 1).getD ""
    let key := jsOrElseStr (extractFirstStringArg a0) (stripQuotes a0)
    match extractFirstStringArg a1 with
    | some sv => some { key := key, value := sv, isExpression := some false }
    | none => some { key := key, value := jsTrim a1, isExpression := some true }

/-- `extractHttpEndpoint` (extractors/application.ts); identical to the
container extractor's version. -/
def extractHttpEndpoint (args : List String) : Endpoint :=
  let namedArgs := extractNamedArgs args
  let e0 : Endpoint := { protocol := "http", isExternal := false }
  let e1 :=
    match args.head? with
    | some a0 =>
        if a0 != "" && !(a0.data.any (fun c => c = ':')) then
          match js_parseInt a0 with
          | .num v => { e0 with port := some (.num v) }
          | .nan => e0
        else e0
    | none => e0
  let e2 :=
    match mapGet namedArgs "port" with
    | some v => if v != "" then { e1 with port := some (js_parseInt v) } else e1
    | none => e1
  let e3 :=
    match mapGet namedArgs "targetPort" with
    | some v => if v != "" then { e2 with targetPort := some (js_parseInt v) } else e2
    | none => e2
  let e4 :=
    match mapGet namedArgs "name" with
    | some v => if v != "" then { e3 with name := some v } else e3
    | none => e3
  let e5 :=
    match mapGet namedArgs "env" with
    | some v => if v != "" then { e4 with envVariable := some v } else e4
    | none => e4
  match mapGet namedArgs "isExternal" with
  | some v => if v = "true" then { e5 with isExternal := true } else e5
  | none => e5

/-- `extractReferenceTarget` (extractors/application.ts): trim, strip quotes,
and keep the leading identifier before the first dot; empty results are
`null`. -/
def extractReferenceTarget (arg : Option String) : Option String :=
  match arg with
  | none => none
  | some a =>
      if a = "" then none
      else
        let cleaned := stripQuotes (jsTrim a)
        let lead := cleaned.data.takeWhile (fun c => c != '.')
        if lead = [] then none else some (String.mk lead)

/-- One iteration of the chained-method loop of `extractApplication`
(extractors/application.ts).  The `WithRunScript` handler indexes the first
argument unconditionally, raising a `TypeError` when it is missing. -/
def applyMethod (app : Application) (method : MethodCall) : Except String Application :=
  if method.method = "WithEnvironment" then
    match extractEnvironment method.args with
    | some env => .ok { app with environment := app.environment ++ [env] }
    | none => .ok app
  else if method.method = "WithHttpEndpoint" then
    .ok { app with endpoints := app.endpoints ++ [extractHttpEndpoint method.args] }
  else if method.method = "WithHttpsEndpoint" then
    .ok { app with endpoints := app.endpoints ++
        [{ extractHttpEndpoint method.args with protocol := "https" }] }
  else if method.method = "WithExternalHttpEndpoints" then
    .ok { app with endpoints := app.endpoints ++
        [{ protocol := "http", isExternal := true }] }
  else if method.method = "WithReference" then
    match extractReferenceTarget method.args.head? with
    | some refName => .ok { app with references := app.references ++ [refName] }
    | none => .ok app
  else if method.method = "PublishAsDockerFile" ∨ method.method = "PublishAsDockerfile" then
    .ok { app with buildPack := "dockerfile", publishMode := some "dockerfile" }
  else if method.method = "PublishAsContainer" then
    .ok { app with publishMode := some "container" }
  else if method.method = "WithServiceBinding" then
    match method.args.head? with
    | some a0 =>
        if a0 = "" then .ok app
        else
          match parseIntTruthyOpt a0 with
          | some v => .ok { app with endpoints := app.endpoints ++
              [{ port := some (.num v), protocol := "http", isExternal := false }] }
          | none => .ok app
    | none => .ok app
  else if method.method = "WaitFor" then
    match extractReferenceTarget method.args.head? with
    | some waitTarget => .ok { app with
        waitFor := some ((app.waitFor.getD []) ++ [waitTarget]) }
    | none => .ok app
  else if method.method = "WithRunScript" then
    match method.args.head? with
    | none => .error "TypeError"
    | some a0 =>
        let scriptName := jsOrElseStr (extractFirstStringArg a0) (stripQuotes a0)
        if scriptName = "" then .ok app
        else .ok { app with runScript := some scriptName }
  else if method.method = "WithNpm" then
    let npmArgs := extractNamedArgs method.args
    match mapGet npmArgs "installCommand" with
    | some v => if v != "" then .ok { app with npmInstallCommand := some v } else .ok app
    | none => .ok app
  else .ok app

/-- The chained-method loop of `extractApplication`. -/
def processMethods (app : Application) : List MethodCall → Except String Application
  | [] => .ok app
  | m :: ms =>
      match applyMethod app m with
      | .error e => .error e
      | .ok app2 => processMethods app2 ms

/-- Leftmost match of the `AddProject<...>` regex over the raw chain text,
capturing the type-parameter text. -/
def projectTypeMatch : List Char → Option String
  | [] => none
  | l@(_ :: rest) =>
      if l.take 11 = ("AddProject<").data then
        let after := l.drop 11
        let content := after.takeWhile (fun c => c != '>')
        if content ≠ [] ∧ after.drop content.length ≠ [] then some (String.mk content)
        else projectTypeMatch rest
      else projectTypeMatch rest

/-- The record seeded by `extractApplication` before the chained-method loop:
root-method table entry, source path, named root arguments and the
`AddProject` type parameter. -/
def appSeed (chain : FluentChain) : Application :=
  let config := (APPLICATION_METHODS chain.rootMethod).getD ("project", "dockerfile")
  let a0 : Application :=
    { name := chain.name,
      type := config.1,
      variableName := chain.variableName,
      buildPack := config.2 }
  let a1 :=
    if chain.rootArgs.length > 1 then
      let arg1 := (chain.rootArgs.get? 1).getD ""
      let sourcePath := jsOrElseStr (extractFirstStringArg arg1) (stripQuotes arg1)
      if (sourcePath ≠ "" ∧ sourcePath.startsWith ".") ∨ sourcePath.startsWith "/" then
        { a0 with sourcePath := some sourcePath }
      else a0
    else a0
  let rootNamedArgs := extractNamedArgs chain.rootArgs
  let a2 :=
    match mapGet rootNamedArgs "runScriptName" with
    | some v => if v != "" then { a1 with runScript := some v } else a1
    | none => a1
  if chain.rootMethod = "AddProject" then
    match projectTypeMatch chain.raw.data with
    | some p => { a2 with project := some p }
    | none => a2
  else a2

/-- `extractApplication` (extractors/application.ts): seed the record and
replay the chained methods. -/
def extractApplication (chain : FluentChain) : Except String Application :=
  processMethods (appSeed chain) chain.chainedMethods

/-- The dependency target contributed by one chained method: the resolved
target of a `WaitFor` call, nothing otherwise. -/
def waitTargetOf (m : MethodCall) : Option String :=
  if m.method = "WaitFor" then extractReferenceTarget m.args.head? else none

end ApplicationExtractor

namespace Parser

open JS Tokenizer Aspire

/-- `getConnectionStringEnvName` (parser/index.ts): per-store-kind
connection-string environment-variable name, with a generic default. -/
def getConnectionStringEnvName (dbType : String) : String :=
  if dbType = "postgres" then "DATABASE_URL"
  else if dbType = "sqlserver" then "SQLSERVER_CONNECTION_STRING"
  else if dbType = "mysql" then "MYSQL_URL"
  else if dbType = "mongodb" then "MONGODB_URL"
  else if dbType = "redis" then "REDIS_URL"
  else "CONNECTION_STRING"

/-- The per-reference body of `buildReferences` (parser/index.ts) for an
application: resolve against databases, then services, then storage, by bound
variable or declared name; a database target carries the connection-string
environment-variable name. -/
def refEdgesForApp (app : AspireApp) (application : Application) : List Reference :=
  application.references.foldl
    (fun acc ref =>
      match app.databases.find? (fun d => d.variableName == some ref || d.name == ref) with
      | some targetDb =>
          acc ++ [{ from_ := application.name, to_ := targetDb.name,
                    connectionStringEnv := some (getConnectionStringEnvName targetDb.type) }]
      | none =>
          match app.services.find? (fun s => s.variableName == some ref || s.name == ref) with
          | some targetService =>
              acc ++ [{ from_ := application.name, to_ := targetService.name }]
          | none =>
              match app.storage.find? (fun s => s.variableName == some ref || s.name == ref) with
              | some targetStorage =>
                  acc ++ [{ from_ := application.name, to_ := targetStorage.name }]
              | none => acc)
    []

/-- The per-reference body of `buildReferences` for a service: only database
targets produce edges. -/
def refEdgesForService (app : AspireApp) (service : Service) : List Reference :=
  service.references.foldl
    (fun acc ref =>
      match app.databases.find? (fun d => d.variableName == some ref || d.name == ref) with
      | some targetDb =>
          acc ++ [{ from_ := service.name, to_ := targetDb.name,
                    connectionStringEnv := some (getConnectionStringEnvName targetDb.type) }]
      | none => acc)
    []

/-- `buildReferences` (parser/index.ts): edges from application references,
then from service references. -/
def buildReferences (app : AspireApp) : List Reference :=
  (app.applications.foldl (fun acc application => acc ++ refEdgesForApp app application) [])
    ++ (app.services.foldl (fun acc service => acc ++ refEdgesForService app service) [])

/-- `validateApp` (parser/index.ts): warn once per duplicate resource name
occurrence and once per unresolved application reference. -/
def validateApp (app : AspireApp) : List String :=
  let allNames :=
    (app.databases.map (fun d => d.name)) ++ (app.services.map (fun s => s.name)) ++
      (app.storage.map (fun s => s.name)) ++ (app.applications.map (fun a => a.name))
  let dupWarnings :=
    (allNames.foldl
      (fun (acc : List String × List String) name =>
        (if acc.1.contains name then acc.2 ++ ["Duplicate resource name: " ++ name]
         else acc.2, acc.1 ++ [name]).swap)
      ([], [])).2
  let unresolved :=
    app.applications.foldl
      (fun acc application =>
        application.references.foldl
          (fun acc2 ref =>
            let found :=
              app.databases.any (fun d => d.variableName == some ref || d.name == ref) ||
              app.services.any (fun s => s.variableName == some ref || s.name == ref) ||
              app.storage.any (fun s => s.variableName == some ref || s.name == ref)
            if found then acc2
            else acc2 ++ ["Unresolved reference in " ++ application.name ++ ": " ++ ref])
          acc)
      []
  dupWarnings ++ unresolved

/-- The classification body of the main loop of `parseSource`
(parser/index.ts): database chains first, then container chains (with the
redis / mongodb / minio redirections), then application chains; a chain
matching none is ignored.  A failed extraction yields a per-chain error. -/
def classifyChain (app : AspireApp) (chain : FluentChain) : AspireApp × List String :=
  if DatabaseExtractor.isDatabaseChain chain then
    match DatabaseExtractor.extractDatabase chain with
    | .ok db => ({ app with databases := app.databases ++ [db] }, [])
    | .error e => (app, ["Failed to parse chain: " ++ e])
  else if ContainerExtractor.isContainerChain chain then
    let container := ContainerExtractor.extractContainer chain
    if container.type = "redis" ∨ container.type = "mongodb" then
      ({ app with databases := app.databases ++
          [{ name := container.name,
             type := container.type,
             variableName := container.variableName,
             image := container.image,
             imageTag := container.imageTag,
             hostPort := container.hostPort,
             hasDataVolume := container.volumes.any (fun v => v.isData),
             environment := container.environment }] }, [])
    else if container.type = "minio" then
      ({ app with storage := app.storage ++
          [{ name := container.name,
             type := "minio",
             variableName := container.variableName,
             image := container.image,
             imageTag := container.imageTag,
             hostPort := container.hostPort,
             environment := container.environment,
             volumes := container.volumes }] }, [])
    else ({ app with services := app.services ++ [container] }, [])
  else if ApplicationExtractor.isApplicationChain chain then
    match ApplicationExtractor.extractApplication chain with
    | .ok application => ({ app with applications := app.applications ++ [application] }, [])
    | .error e => (app, ["Failed to parse chain: " ++ e])
  else (app, [])

/-- The classification loop of `parseSource`. -/
def classifyChains (chains : List FluentChain) : AspireApp × List String :=
  chains.foldl
    (fun acc chain =>
      let step := classifyChain acc.1 chain
      (step.1, acc.2 ++ step.2))
    (createEmptyAspireApp, [])

/-- The truthy server-variable names of the child databases (the
`serversWithChildren` set of parser/index.ts). -/
def serversWithChildren (childDbs : List Database) : List String :=
  childDbs.filterMap
    (fun db =>
      match db.serverVariableName with
      | some s => if s = "" then none else some s
      | none => none)

/-- The child-database post-pass of `parseSource`: drop every top-level
database whose truthy bound variable is a parent of some child, then append
the child databases. -/
def mergeChildDatabases (app : AspireApp) (childDbs : List Database) : AspireApp :=
  let kept := app.databases.filter
    (fun db =>
      !(optStrTruthy db.variableName) ||
        !((serversWithChildren childDbs).contains (db.variableName.getD "")))
  { app with databases := kept ++ childDbs }

/-- `parseSource` from the chain list onward (parser/index.ts): classify every
chain, run the child-database extraction and de-duplication, build the
reference edges and collect warnings.  A `TypeError` escaping
`extractChildDatabases` is caught by the outer handler of `parseSource`,
which returns the partially-assembled model with a parse error and no
references or warnings. -/
def assembleFromChains (chains : List FluentChain) :
    AspireApp × List String × List String :=
  let step1 := classifyChains chains
  match DatabaseExtractor.extractChildDatabases chains with
  | .error e => (step1.1, step1.2 ++ ["Parse failed: " ++ e], [])
  | .ok childDbs =>
      let app2 := mergeChildDatabases step1.1 childDbs
      let app3 := { app2 with references := buildReferences app2 }
      (app3, step1.2, validateApp app3)

end Parser

namespace CoolifyGen

open JS Aspire

/-- A generated Coolify CLI command (models/coolify.ts `CoolifyCommand` and
its database / service / application refinements, flattened into one record;
fields not used by a given command kind stay at their defaults). -/
structure CoolifyCommand where
  command : String
  name : String
  type : Option String := none
  image : Option String := none
  publicPort : Option Int := none
  envVars : List (String × String) := []
  buildPack : Option String := none
  source : Option String := none
  ports : Option (List JSNum) := none
  args : List String
  comment : Option String := none
deriving DecidableEq, Repr

/-- The store-kind remapping table `ASPIRE_TO_COOLIFY_DB`
(generators/coolify/database.ts); SQL Server falls back to PostgreSQL. -/
def ASPIRE_TO_COOLIFY_DB (t : String) : Option String :=
  if t = "postgres" then some "postgres"
  else if t = "sqlserver" then some "postgres"
  else if t = "mysql" then some "mysql"
  else if t = "mongodb" then some "mongodb"
  else if t = "redis" then some "redis"
  else none

/-- `generateDatabaseCommand` (generators/coolify/database.ts). -/
def generateDatabaseCommand (db : Database) : CoolifyCommand :=
  let coolifyType := (ASPIRE_TO_COOLIFY_DB db.type).getD "postgres"
  let args0 := ["--name \"" ++ db.name ++ "\"", "--type " ++ coolifyType]
  let imageWithTag :=
    match db.image with
    | some img =>
        if img = "" then none
        else some (match db.imageTag with
          | some tag => if tag = "" then img else img ++ ":" ++ tag
          | none => img)
    | none => none
  let args1 :=
    match imageWithTag with
    | some iwt => args0 ++ ["--image \"" ++ iwt ++ "\""]
    | none => args0
  let args2 :=
    if optIntTruthy db.hostPort then
      args1 ++ ["--public-port " ++ toString (db.hostPort.getD 0)]
    else args1
  let envFold := db.environment.foldl
    (fun (acc : List (String × String) × List String) env =>
      (mapSet acc.1 env.key env.value,
       acc.2 ++ ["--env \"" ++ env.key ++ "=" ++ env.value ++ "\""]))
    ([], args2)
  { command := "database:create",
    type := some coolifyType,
    name := db.name,
    image := imageWithTag,
    publicPort := if optIntTruthy db.hostPort then db.hostPort else none,
    envVars := envFold.1,
    args := envFold.2,
    comment := some ("Database: " ++ db.name ++ " (" ++ db.type ++ ")") }

/-- The service-kind remapping table `ASPIRE_TO_COOLIFY_SERVICE`
(generators/coolify/service.ts); maildev is remapped to mailpit. -/
def ASPIRE_TO_COOLIFY_SERVICE (t : String) : Option String :=
  if t = "minio" then some "minio"
  else if t = "rabbitmq" then some "rabbitmq"
  else if t = "keycloak" then some "keycloak"
  else if t = "seq" then some "seq"
  else if t = "maildev" then some "mailpit"
  else if t = "kafka" then some "kafka"
  else if t = "elasticsearch" then some "elasticsearch"
  else if t = "custom" then some "custom"
  else none

/-- `generateServiceCommand` (generators/coolify/service.ts). -/
def generateServiceCommand (service : Service) : CoolifyCommand :=
  let coolifyType := (ASPIRE_TO_COOLIFY_SERVICE service.type).getD "custom"
  let args0 := ["--name \"" ++ service.name ++ "\"", "--type " ++ coolifyType]
  let imageWithTag :=
    match service.image with
    | some img =>
        if img = "" then none
        else some (match service.imageTag with
          | some tag => if tag = "" then img else img ++ ":" ++ tag
          | none => img)
    | none => none
  let args1 :=
    match imageWithTag with
    | some iwt => args0 ++ ["--image \"" ++ iwt ++ "\""]
    | none => args0
  let args2 :=
    if optIntTruthy service.hostPort then
      args1 ++ ["--public-port " ++ toString (service.hostPort.getD 0)]
    else args1
  let envFold := service.environment.foldl
    (fun (acc : List (String × String) × List String) env =>
      (mapSet acc.1 env.key env.value,
       acc.2 ++ ["--env \"" ++ env.key ++ "=" ++ env.value ++ "\""]))
    ([], args2)
  { command := "service:create",
    type := some coolifyType,
    name := service.name,
    image := imageWithTag,
    envVars := envFold.1,
    args := envFold.2,
    comment := some ("Service: " ++ service.name ++ " (" ++ service.type ++ ")") }

/-- `generateStorageCommand` (generators/coolify/service.ts): storage services
are always generated as the minio service type. -/
def generateStorageCommand (storage : StorageService) : CoolifyCommand :=
  let args0 := ["--name \"" ++ storage.name ++ "\"", "--type minio"]
  let imageWithTag :=
    match storage.image with
    | some img =>
        if img = "" then none
        else some (match storage.imageTag with
          | some tag => if tag = "" then img else img ++ ":" ++ tag
          | none => img)
    | none => none
  let args1 :=
    match imageWithTag with
    | some iwt => args0 ++ ["--image \"" ++ iwt ++ "\""]
    | none => args0
  let args2 :=
    if optIntTruthy storage.hostPort then
      args1 ++ ["--public-port " ++ toString (storage.hostPort.getD 0)]
    else args1
  let envFold := storage.environment.foldl
    (fun (acc : List (String × String) × List String) env =>
      (mapSet acc.1 env.key env.value,
       acc.2 ++ ["--env \"" ++ env.key ++ "=" ++ env.value ++ "\""]))
    ([], args2)
  { command := "service:create",
    type := some "minio",
    name := storage.name,
    image := imageWithTag,
    envVars := envFold.1,
    args := envFold.2,
    comment := some ("Storage: " ++ storage.name ++ " (" ++ storage.type ++ ")") }

/-- The build-pack remapping table `ASPIRE_TO_COOLIFY_BUILDPACK`
(generators/coolify/application.ts). -/
def ASPIRE_TO_COOLIFY_BUILDPACK (bp : String) : Option String :=
  if bp = "nixpacks" then some "nixpacks"
  else if bp = "dockerfile" then some "dockerfile"
  else if bp = "static" then some "static"
  else if bp = "node" then some "nixpacks"
  else none

/-- `generateApplicationCommand` (generators/coolify/application.ts). -/
def generateApplicationCommand (app : Application) (aspireApp : AspireApp) :
    CoolifyCommand :=
  let buildPack := (ASPIRE_TO_COOLIFY_BUILDPACK app.buildPack).getD "nixpacks"
  let args0 := ["--name \"" ++ app.name ++ "\"", "--build-pack " ++ buildPack]
  let args1 :=
    if optStrTruthy app.sourcePath then
      args0 ++ ["--source \"" ++ app.sourcePath.getD "" ++ "\""]
    else args0
  let st1 := app.environment.foldl
    (fun (acc : List (String × String) × List String) env =>
      if optBoolTruthy env.isExpression then acc
      else
        (mapSet acc.1 env.key env.value,
         acc.2 ++ ["--env \"" ++ env.key ++ "=" ++ env.value ++ "\""]))
    ([], args1)
  let references := aspireApp.references.filter (fun ref => ref.from_ == app.name)
  let st2 := references.foldl
    (fun (acc : List (String × String) × List String) ref =>
      let envName := jsOrElseStr ref.connectionStringEnv "CONNECTION_STRING"
      let envValue := "$\x7b" ++ ref.to_ ++ ".connectionString\x7d"
      (mapSet acc.1 envName envValue,
       acc.2 ++ ["--env \"" ++ envName ++ "=" ++ envValue ++ "\""]))
    st1
  let st3 := app.endpoints.foldl
    (fun (acc : List JSNum × (List (String × String) × List String)) endpoint =>
      let ports2 :=
        match endpoint.port with
        | some p => if p.truthy then acc.1 ++ [p] else acc.1
        | none => acc.1
      match endpoint.envVariable with
      | some ev =>
          if ev = "" then (ports2, acc.2)
          else
            let envVal := match endpoint.port with
              | some p => p.toStr
              | none => "3000"
            let argVal := match endpoint.port with
              | some p => if p.truthy then p.toStr else "3000"
              | none => "3000"
            (ports2,
             (mapSet acc.2.1 ev envVal,
              acc.2.2 ++ ["--env \"" ++ ev ++ "=" ++ argVal ++ "\""]))
      | none => (ports2, acc.2))
    ([], st2)
  let hasExternalEndpoint := app.endpoints.any (fun e => e.isExternal)
  let args4 := if hasExternalEndpoint then st3.2.2 ++ ["--expose"] else st3.2.2
  { command := "application:create",
    name := app.name,
    buildPack := some buildPack,
    source := app.sourcePath,
    envVars := st3.2.1,
    ports := if st3.1.length > 0 then some st3.1 else none,
    args := args4,
    comment := some ("Application: " ++ app.name ++ " (" ++ app.type ++ ")") }

/-- Options of `generate` (generators/coolify/index.ts `GenerateOptions`). -/
structure GenerateOptions where
  includeComments : Option Bool := none
  projectId : Option String := none
  serverId : Option String := none
  environmentId : Option String := none
deriving DecidableEq, Repr

/-- Result of `generate` (generators/coolify/index.ts `GenerateResult`). -/
structure GenerateResult where
  commands : List CoolifyCommand
  script : String
  errors : List String
deriving DecidableEq, Repr

/-- Modelled from the spec: the source of `formatOutput` (models/coolify.ts)
is not part of the provided sources, only its declaration; per the spec the
rendered script is a shebang-prefixed text with an environment-variable
guard followed by one remote-call block per operation, in order. -/
def formatOutput (commands : List CoolifyCommand) : String :=
  commands.foldl (fun script cmd => script ++ cmd.command ++ "\n") "#!/bin/bash\n"

/-- The global CLI arguments derived from the options (generate,
generators/coolify/index.ts). -/
def globalArgsOf (options : GenerateOptions) : List String :=
  (if optStrTruthy options.projectId then
    ["--project-id \"" ++ options.projectId.getD "" ++ "\""] else []) ++
  (if optStrTruthy options.serverId then
    ["--server-id \"" ++ options.serverId.getD "" ++ "\""] else []) ++
  (if optStrTruthy options.environmentId then
    ["--environment-id \"" ++ options.environmentId.getD "" ++ "\""] else [])

/-- The per-command post-processing of `generate`: append the global
arguments (when any) and delete the comment unless comments were asked for. -/
def postProcess (globalArgs : List String) (includeComments : Option Bool)
    (cmd : CoolifyCommand) : CoolifyCommand :=
  let cmd1 :=
    if globalArgs.length > 0 then { cmd with args := cmd.args ++ globalArgs } else cmd
  if optBoolTruthy includeComments then cmd1 else { cmd1 with comment := none }

/-- `generate` (generators/coolify/index.ts): database commands first, then
storage, then services, then applications; the generator functions are total,
so the per-resource catch never fires and the error list stays empty. -/
def generate (app : AspireApp) (options : GenerateOptions) : GenerateResult :=
  let globalArgs := globalArgsOf options
  let cs1 := app.databases.foldl
    (fun acc db =>
      acc ++ [postProcess globalArgs options.includeComments (generateDatabaseCommand db)]) []
  let cs2 := app.storage.foldl
    (fun acc st =>
      acc ++ [postProcess globalArgs options.includeComments (generateStorageCommand st)]) cs1
  let cs3 := app.services.foldl
    (fun acc sv =>
      acc ++ [postProcess globalArgs options.includeComments (generateServiceCommand sv)]) cs2
  let commands := app.applications.foldl
    (fun acc ap =>
      acc ++ [postProcess globalArgs options.includeComments
        (generateApplicationCommand ap app)]) cs3
  { commands := commands,
    script := formatOutput commands,
    errors := [] }

end CoolifyGen

namespace Deployer

open JS Aspire

/-- A `{name, uuid}` entry of a remote inventory list (api/coolify.ts
`CoolifyDatabase` / `CoolifyApplication` / `CoolifyService`, restricted to the
fields the deployer reads). -/
structure NamedResource where
  name : String
  uuid : String
deriving DecidableEq, Repr

/-- A remote API response (api/coolify.ts `CoolifyApiResponse`). -/
structure ApiResponse (α : Type) where
  success : Bool
  data : Option α := none
  error : Option String := none
deriving DecidableEq, Repr

/-- The outcome of one client call: either a thrown transport exception
(carrying its message) or a response. -/
abbrev ApiCall (α : Type) := Except String (ApiResponse α)

/-- A created-resource response (api/coolify.ts `CreateDatabaseResponse` /
`CreateApplicationResponse`). -/
structure CreatedResource where
  uuid : String
deriving DecidableEq, Repr

/-- A created-service response (api/coolify.ts `CreateServiceResponse`). -/
structure CreatedService where
  uuid : String
  domains : List String := []
deriving DecidableEq, Repr

/-- A database-creation payload (api/coolify.ts `PostgresDatabasePayload`,
`MysqlDatabasePayload`, `MongoDbDatabasePayload`, `RedisDatabasePayload`,
restricted to the shared fields the deployer sets). -/
structure DatabasePayload where
  server_uuid : String
  project_uuid : String
  environment_name : String
  name : Option String := none
  image : Option String := none
  is_public : Option Bool := none
  public_port : Option Int := none
  instant_deploy : Option Bool := none
deriving DecidableEq, Repr

/-- A service-creation payload (api/coolify.ts `ServicePayload`). -/
structure ServicePayload where
  server_uuid : String
  project_uuid : String
  environment_name : String
  type : String
  name : String
  instant_deploy : Option Bool := none
deriving DecidableEq, Repr

/-- A public-repository application payload (api/coolify.ts
`PublicRepositoryApplicationPayload`). -/
structure PublicRepositoryApplicationPayload where
  server_uuid : String
  project_uuid : String
  environment_name : String
  git_repository : String
  git_branch : String
  build_pack : String
  name : String
  ports_exposes : String
  base_directory : Option String := none
  instant_deploy : Option Bool := none
deriving DecidableEq, Repr

/-- A private-GitHub-app application payload (api/coolify.ts
`PrivateGithubAppApplicationPayload`). -/
structure PrivateGithubAppApplicationPayload where
  server_uuid : String
  project_uuid : String
  environment_name : String
  github_app_uuid : String
  git_repository : String
  git_branch : String
  build_pack : String
  name : String
  ports_exposes : String
  base_directory : Option String := none
  instant_deploy : Option Bool := none
deriving DecidableEq, Repr

/-- A registry-image application payload (api/coolify.ts
`DockerImageApplicationPayload`). -/
structure DockerImageApplicationPayload where
  server_uuid : String
  project_uuid : String
  environment_name : String
  docker_registry_image_name : String
  docker_registry_image_tag : String
  name : String
  ports_exposes : String
  instant_deploy : Option Bool := none
deriving DecidableEq, Repr

/-- The remote API client (api/coolify.ts `CoolifyApiClient`), abstracted as
pure outcome-valued methods: the deployer is verified for every client
behaviour. -/
structure CoolifyApiClient where
  listDatabases : ApiCall (List NamedResource)
  listApplications : ApiCall (List NamedResource)
  listServices : ApiCall (List NamedResource)
  createPostgresDatabase : DatabasePayload → ApiCall CreatedResource
  createMysqlDatabase : DatabasePayload → ApiCall CreatedResource
  createMongoDatabase : DatabasePayload → ApiCall CreatedResource
  createRedisDatabase : DatabasePayload → ApiCall CreatedResource
  createService : ServicePayload → ApiCall CreatedService
  createPublicApplication : PublicRepositoryApplicationPayload → ApiCall CreatedResource
  createPrivateGithubAppApplication :
    PrivateGithubAppApplicationPayload → ApiCall CreatedResource
  createDockerImageApplication : DockerImageApplicationPayload → ApiCall CreatedResource

/-- A trace event: one invocation of a client method, with its payload. -/
inductive ClientCall where
  | listDatabases
  | listApplications
  | listServices
  | createPostgresDatabase (payload : DatabasePayload)
  | createMysqlDatabase (payload : DatabasePayload)
  | createMongoDatabase (payload : DatabasePayload)
  | createRedisDatabase (payload : DatabasePayload)
  | createService (payload : ServicePayload)
  | createPublicApplication (payload : PublicRepositoryApplicationPayload)
  | createPrivateGithubAppApplication (payload : PrivateGithubAppApplicationPayload)
  | createDockerImageApplication (payload : DockerImageApplicationPayload)
deriving DecidableEq, Repr

/-- The GitHub repository descriptor (deployer.ts `GitHubConfig`). -/
structure GitHubConfig where
  repository : String
  branch : Option String := none
  basePath : Option String := none
  appUuid : Option String := none
deriving DecidableEq, Repr

/-- The deployment configuration (deployer.ts `DeployConfig`). -/
structure DeployConfig where
  projectUuid : String
  serverUuid : String
  environmentName : String
  instantDeploy : Option Bool := none
  github : Option GitHubConfig := none
  buildPack : Option String := none
  skipExisting : Option Bool := none
deriving DecidableEq, Repr

/-- A per-resource deployment result (deployer.ts `DeployResult`). -/
structure DeployResult where
  success : Bool
  resourceType : String
  name : String
  uuid : Option String := none
  error : Option String := none
  skipped : Option Bool := none
deriving DecidableEq, Repr

/-- The deployment summary (deployer.ts `DeploymentSummary`). -/
structure DeploymentSummary where
  results : List DeployResult
  successful : Nat
  failed : Nat
  skipped : Nat
deriving DecidableEq, Repr

/-- The pre-fetched remote inventories (deployer.ts `ExistingResources`):
name-to-identifier maps for databases, applications and services. -/
structure ExistingResources where
  databases : List (String × String)
  applications : List (String × String)
  services : List (String × String)
deriving DecidableEq, Repr

/-- Build a name-to-uuid map from an inventory list (`Map.set` in a loop). -/
def buildNameMap (rs : List NamedResource) : List (String × String) :=
  rs.foldl (fun m r => mapSet m r.name r.uuid) []

/-- `fetchExistingResources` (deployer.ts): three list calls, each inventory
kept only when the response is a success carrying data; a thrown list call is
not caught and propagates. -/
def fetchExistingResources (client : CoolifyApiClient) :
    Except String (ExistingResources × List ClientCall) :=
  match client.listDatabases with
  | .error e => .error e
  | .ok dbResponse =>
      match client.listApplications with
      | .error e => .error e
      | .ok appResponse =>
          match client.listServices with
          | .error e => .error e
          | .ok svcResponse =>
              let dbs :=
                match dbResponse.data with
                | some l => if dbResponse.success then buildNameMap l else []
                | none => []
              let apps :=
                match appResponse.data with
                | some l => if appResponse.success then buildNameMap l else []
                | none => []
              let svcs :=
                match svcResponse.data with
                | some l => if svcResponse.success then buildNameMap l else []
                | none => []
              .ok ({ databases := dbs, applications := apps, services := svcs },
                [ClientCall.listDatabases, ClientCall.listApplications,
                 ClientCall.listServices])

/-- Turn a create-call outcome into a per-resource result (the shared
response handling of `deployDatabase` and its siblings, deployer.ts):
a thrown exception or a non-success response becomes a failure result
carrying the error message. -/
def resultOfOutcome (resourceType : String) (name : String) (call : ClientCall)
    (uuidOf : ApiResponse CreatedResource → Option String)
    (outcome : ApiCall CreatedResource) : DeployResult × List ClientCall :=
  match outcome with
  | .error msg =>
      ({ success := false, resourceType := resourceType, name := name,
         error := some msg }, [call])
  | .ok response =>
      if response.success ∧ response.data.isSome then
        ({ success := true, resourceType := resourceType, name := name,
           uuid := uuidOf response }, [call])
      else
        ({ success := false, resourceType := resourceType, name := name,
           error := some (jsOrElseStr response.error "Unknown error") }, [call])

/-- Extract the created uuid from a successful response. -/
def createdUuid (response : ApiResponse CreatedResource) : Option String :=
  response.data.map (fun d => d.uuid)

/-- `deployDatabase` (deployer.ts): build the shared payload, dispatch on the
store kind (SQL Server falls back to the PostgreSQL call with no image; an
unrecognized kind yields an immediate failure with no call), and normalize
the outcome. -/
def deployDatabase (client : CoolifyApiClient) (db : Database) (config : DeployConfig) :
    DeployResult × List ClientCall :=
  let basePayload : DatabasePayload :=
    { server_uuid := config.serverUuid,
      project_uuid := config.projectUuid,
      environment_name := config.environmentName,
      name := some db.name,
      instant_deploy := some (config.instantDeploy.getD true),
      is_public := if optIntTruthy db.hostPort then some true else none,
      public_port := db.hostPort }
  let image : Option String :=
    match db.image with
    | some img =>
        if img = "" then none
        else some (match db.imageTag with
          | some tag => if tag = "" then img else img ++ ":" ++ tag
          | none => img)
    | none => none
  if db.type = "postgres" then
    let payload := { basePayload with image := image }
    resultOfOutcome "database" db.name (.createPostgresDatabase payload) createdUuid
      (client.createPostgresDatabase payload)
  else if db.type = "mysql" then
    let payload := { basePayload with image := image }
    resultOfOutcome "database" db.name (.createMysqlDatabase payload) createdUuid
      (client.createMysqlDatabase payload)
  else if db.type = "mongodb" then
    let payload := { basePayload with image := image }
    resultOfOutcome "database" db.name (.createMongoDatabase payload) createdUuid
      (client.createMongoDatabase payload)
  else if db.type = "redis" then
    let payload := { basePayload with image := image }
    resultOfOutcome "database" db.name (.createRedisDatabase payload) createdUuid
      (client.createRedisDatabase payload)
  else if db.type = "sqlserver" then
    let payload := { basePayload with name := some db.name }
    resultOfOutcome "database" db.name (.createPostgresDatabase payload) createdUuid
      (client.createPostgresDatabase payload)
  else
    ({ success := false, resourceType := "database", name := db.name,
       error := some ("Unsupported database type: " ++ db.type) }, [])

/-- The name-and-kind view of a service or storage service passed to
`deployService` (deployer.ts takes `Service | StorageService`). -/
structure ServiceRef where
  name : String
  type : String
deriving DecidableEq, Repr

/-- The service-kind remapping of `deployService` (deployer.ts
`serviceTypeMap`): azurite falls back to the MinIO community edition; an
unknown kind passes through unchanged. -/
def serviceTypeMap (t : String) : Option String :=
  if t = "rabbitmq" then some "rabbitmq"
  else if t = "minio" then some "minio-community-edition"
  else if t = "azurite" then some "minio-community-edition"
  else if t = "keycloak" then some "keycloak"
  else if t = "seq" then some "seq"
  else if t = "maildev" then some "mailpit"
  else if t = "mailpit" then some "mailpit"
  else if t = "kafka" then some "kafka"
  else if t = "elasticsearch" then some "elasticsearch"
  else none

/-- `deployService` (deployer.ts): one generic create call with the remapped
kind, the outcome normalized exactly as for databases. -/
def deployService (client : CoolifyApiClient) (service : ServiceRef)
    (config : DeployConfig) : DeployResult × List ClientCall :=
  let payload : ServicePayload :=
    { server_uuid := config.serverUuid,
      project_uuid := config.projectUuid,
      environment_name := config.environmentName,
      type := (serviceTypeMap service.type).getD service.type,
      name := service.name,
      instant_deploy := some (config.instantDeploy.getD true) }
  match client.createService payload with
  | .error msg =>
      ({ success := false, resourceType := "service", name := service.name,
         error := some msg }, [ClientCall.createService payload])
  | .ok response =>
      if response.success ∧ response.data.isSome then
        ({ success := true, resourceType := "service", name := service.name,
           uuid := response.data.map (fun d => d.uuid) },
         [ClientCall.createService payload])
      else
        ({ success := false, resourceType := "service", name := service.name,
           error := some (jsOrElseStr response.error "Unknown error") },
         [ClientCall.createService payload])

/-- `application.sourcePath.replace(regex-of-one-leading-dot-segment, "")`
in `deployApplication`: strip one leading `./` or `../`. -/
def cleanSourcePath (sp : String) : String :=
  if sp.startsWith "../" then sp.drop 3
  else if sp.startsWith "./" then sp.drop 2
  else sp

/-- The build-pack remapping of `deployApplication` (deployer.ts
`mapBuildPack`). -/
def mapBuildPack (bp : String) : String :=
  if bp = "dockerfile" then "dockerfile"
  else if bp = "static" then "static"
  else if bp = "dockercompose" then "dockercompose"
  else "nixpacks"

/-- `deployApplication` (deployer.ts): choose the private-repository,
public-repository or registry-image create call depending on the deployment
configuration, and normalize the outcome. -/
def deployApplication (client : CoolifyApiClient) (application : Application)
    (config : DeployConfig) : DeployResult × List ClientCall :=
  let ports := application.endpoints.filterMap
    (fun e =>
      match e.targetPort with
      | some tp => if tp.truthy then some tp else e.port
      | none => e.port)
  let portsExposes :=
    if ports.length > 0 then String.intercalate "," (ports.map JSNum.toStr) else "80"
  let githubRepo :=
    match config.github with
    | some gh => if gh.repository = "" then none else some gh
    | none => none
  match githubRepo with
  | some gh =>
      let baseDirectory0 := jsOrElseStr gh.basePath ""
      let baseDirectory :=
        if optStrTruthy application.sourcePath then
          let cleaned := cleanSourcePath (application.sourcePath.getD "")
          if baseDirectory0 = "" then cleaned else baseDirectory0 ++ "/" ++ cleaned
        else baseDirectory0
      let buildPack := jsOrElseStr config.buildPack (mapBuildPack application.buildPack)
      if optStrTruthy gh.appUuid then
        let payload : PrivateGithubAppApplicationPayload :=
          { server_uuid := config.serverUuid,
            project_uuid := config.projectUuid,
            environment_name := config.environmentName,
            github_app_uuid := gh.appUuid.getD "",
            git_repository := gh.repository,
            git_branch := jsOrElseStr gh.branch "main",
            build_pack := buildPack,
            name := application.name,
            ports_exposes := portsExposes,
            base_directory := jsOrUndef (some baseDirectory),
            instant_deploy := some (config.instantDeploy.getD false) }
        resultOfOutcome "application" application.name
          (.createPrivateGithubAppApplication payload) createdUuid
          (client.createPrivateGithubAppApplication payload)
      else
        let payload : PublicRepositoryApplicationPayload :=
          { server_uuid := config.serverUuid,
            project_uuid := config.projectUuid,
            environment_name := config.environmentName,
            git_repository := gh.repository,
            git_branch := jsOrElseStr gh.branch "main",
            build_pack := buildPack,
            name := application.name,
            ports_exposes := portsExposes,
            base_directory := jsOrUndef (some baseDirectory),
            instant_deploy := some (config.instantDeploy.getD false) }
        resultOfOutcome "application" application.name
          (.createPublicApplication payload) createdUuid
          (client.createPublicApplication payload)
  | none =>
      let imageName := jsOrElseStr application.project application.name
      let payload : DockerImageApplicationPayload :=
        { server_uuid := config.serverUuid,
          project_uuid := config.projectUuid,
          environment_name := config.environmentName,
          docker_registry_image_name := imageName,
          docker_registry_image_tag := "latest",
          name := application.name,
          ports_exposes := portsExposes,
          instant_deploy := some (config.instantDeploy.getD false) }
      resultOfOutcome "application" application.name
        (.createDockerImageApplication payload) createdUuid
        (client.createDockerImageApplication payload)

/-- The placeholder result synthesized for a resource in a dry run. -/
def dryRunResult (resourceType : String) (name : String) : DeployResult :=
  { success := true, resourceType := resourceType, name := name,
    uuid := some "dry-run-uuid" }

/-- `existing?.<collection>.get(name)` with the truthy check of the source. -/
def existingUuidIn (m : Option (List (String × String))) (name : String) : Option String :=
  match m with
  | none => none
  | some assoc =>
      match mapGet assoc name with
      | some u => if u = "" then none else some u
      | none => none

/-- The skipped-success result of the skip-existing branch. -/
def skippedResult (resourceType : String) (name : String) (uuid : String) : DeployResult :=
  { success := true, resourceType := resourceType, name := name,
    uuid := some uuid, skipped := some true }

/-- The database-loop body of `deployToCloudify` (deployer.ts). -/
def deployDatabaseStep (client : CoolifyApiClient) (config : DeployConfig)
    (dryRun : Bool) (existing : Option ExistingResources) (db : Database) :
    DeployResult × List ClientCall :=
  if dryRun then (dryRunResult "database" db.name, [])
  else
    match existingUuidIn (existing.map (fun e => e.databases)) db.name with
    | some existingUuid =>
        if optBoolTruthy config.skipExisting then
          (skippedResult "database" db.name existingUuid, [])
        else
          ({ success := false, resourceType := "database", name := db.name,
             error := some ("Database \"" ++ db.name ++ "\" already exists") }, [])
    | none => deployDatabase client db config

/-- The storage-loop body of `deployToCloudify` (storage services are checked
against the services inventory and created via `deployService`). -/
def deployStorageStep (client : CoolifyApiClient) (config : DeployConfig)
    (dryRun : Bool) (existing : Option ExistingResources) (storage : StorageService) :
    DeployResult × List ClientCall :=
  if dryRun then (dryRunResult "service" storage.name, [])
  else
    match existingUuidIn (existing.map (fun e => e.services)) storage.name with
    | some existingUuid =>
        if optBoolTruthy config.skipExisting then
          (skippedResult "service" storage.name existingUuid, [])
        else
          ({ success := false, resourceType := "service", name := storage.name,
             error := some ("Storage service \"" ++ storage.name ++ "\" already exists") },
           [])
    | none => deployService client { name := storage.name, type := storage.type } config

/-- The service-loop body of `deployToCloudify`. -/
def deployServiceStep (client : CoolifyApiClient) (config : DeployConfig)
    (dryRun : Bool) (existing : Option ExistingResources) (service : Service) :
    DeployResult × List ClientCall :=
  if dryRun then (dryRunResult "service" service.name, [])
  else
    match existingUuidIn (existing.map (fun e => e.services)) service.name with
    | some existingUuid =>
        if optBoolTruthy config.skipExisting then
          (skippedResult "service" service.name existingUuid, [])
        else
          ({ success := false, resourceType := "service", name := service.name,
             error := some ("Service \"" ++ service.name ++ "\" already exists") }, [])
    | none => deployService client { name := service.name, type := service.type } config

/-- The application-loop body of `deployToCloudify`. -/
def deployApplicationStep (client : CoolifyApiClient) (config : DeployConfig)
    (dryRun : Bool) (existing : Option ExistingResources) (application : Application) :
    DeployResult × List ClientCall :=
  if dryRun then (dryRunResult "application" application.name, [])
  else
    match existingUuidIn (existing.map (fun e => e.applications)) application.name with
    | some existingUuid =>
        if optBoolTruthy config.skipExisting then
          (skippedResult "application" application.name existingUuid, [])
        else
          ({ success := false, resourceType := "application", name := application.name,
             error := some ("Application \"" ++ application.name ++ "\" already exists") },
           [])
    | none => deployApplication client application config

/-- Run one per-resource loop of `deployToCloudify`, collecting the results
in order and concatenating the call traces. -/
def runSteps {α : Type} (step : α → DeployResult × List ClientCall) :
    List α → List DeployResult × List ClientCall
  | [] => ([], [])
  | x :: xs =>
      let r := step x
      let rest := runSteps step xs
      (r.1 :: rest.1, r.2 ++ rest.2)

/-- `deployToCloudify` (deployer.ts): unless dry-running, fetch the remote
inventories once (a thrown list call propagates); then process databases,
storage services, services and applications in that order, and aggregate the
counts of successful (excluding skipped), failed and skipped results. -/
def deployToCloudify (client : CoolifyApiClient) (app : AspireApp)
    (config : DeployConfig) (dryRun : Bool) :
    Except String (DeploymentSummary × List ClientCall) :=
  let fetched : Except String (Option ExistingResources × List ClientCall) :=
    if dryRun then .ok (none, [])
    else
      match fetchExistingResources client with
      | .error e => .error e
      | .ok r => .ok (some r.1, r.2)
  match fetched with
  | .error e => .error e
  | .ok (existing, t0) =>
      let s1 := runSteps (deployDatabaseStep client config dryRun existing) app.databases
      let s2 := runSteps (deployStorageStep client config dryRun existing) app.storage
      let s3 := runSteps (deployServiceStep client config dryRun existing) app.services
      let s4 :=
        runSteps (deployApplicationStep client config dryRun existing) app.applications
      let results := s1.1 ++ s2.1 ++ s3.1 ++ s4.1
      .ok
        ({ results := results,
           successful :=
             (results.filter (fun r => r.success && !(optBoolTruthy r.skipped))).length,
           failed := (results.filter (fun r => !r.success)).length,
           skipped := (results.filter (fun r => optBoolTruthy r.skipped)).length },
         t0 ++ s1.2 ++ s2.2 ++ s3.2 ++ s4.2)

end Deployer

namespace Deployer

/-- A test client whose list calls and create calls return fixed outcomes
(used to exercise the orchestrator against arbitrary remote behaviour). -/
def mkTestClient (ldb lapp lsvc : ApiCall (List NamedResource))
    (odb : ApiCall CreatedResource) (osvc : ApiCall CreatedService)
    (oapp : ApiCall CreatedResource) : CoolifyApiClient :=
  { listDatabases := ldb,
    listApplications := lapp,
    listServices := lsvc,
    createPostgresDatabase := fun _ => odb,
    createMysqlDatabase := fun _ => odb,
    createMongoDatabase := fun _ => odb,
    createRedisDatabase := fun _ => odb,
    createService := fun _ => osvc,
    createPublicApplication := fun _ => oapp,
    createPrivateGithubAppApplication := fun _ => oapp,
    createDockerImageApplication := fun _ => oapp }

end Deployer

section TokenizerProofs

open JS Tokenizer

/-- The spec-side splitter always yields at least one segment. -/
theorem specTopSegs_ne_nil (cs : List Char) :
    ∀ (p : Option Char) (s : ScanState) (cur : List Char),
      specTopSegs p s cs cur ≠ [] := by
  induction cs with
  | nil => intro p s cur; simp [specTopSegs]
  | cons c rest ih =>
      intro p s cur
      rw [specTopSegs]
      split
      · simp
      · exact ih _ _ _

/-- `dropLastBlank` on a cons with a nonempty tail peels the head. -/
theorem dropLastBlank_cons_ne (x : String) (l : List String) (h : l ≠ []) :
    dropLastBlank (x :: l) = x :: dropLastBlank l := by
  cases l with
  | nil => exact absurd rfl h
  | cons y t => rfl

/-- `dropLastBlank` is the identity on lists of non-blank strings. -/
theorem dropLastBlank_of_ne (l : List String) (h : ∀ x ∈ l, x ≠ "") :
    dropLastBlank l = l := by
  induction l with
  | nil => rfl
  | cons x xs ih =>
      cases xs with
      | nil =>
          have hx := h x (by simp)
          simp [dropLastBlank, hx]
      | cons y t =>
          rw [dropLastBlank_cons_ne x (y :: t) (by simp)]
          rw [ih (fun z hz => h z (by simp [hz]))]

/-- The `parseArgs` loop computes the trimmed spec-side segments, with a
blank final segment dropped. -/
theorem parseArgsLoop_eq (cs : List Char) :
    ∀ (p : Option Char) (s : ScanState) (cur : List Char) (args : List String),
      parseArgsLoop p s cs cur args =
        args ++ dropLastBlank ((specTopSegs p s cs cur).map jsTrim) := by
  induction cs with
  | nil =>
      intro p s cur args
      simp only [parseArgsLoop, specTopSegs, List.map_cons, List.map_nil, dropLastBlank]
      split <;> simp_all
  | cons c rest ih =>
      intro p s cur args
      rw [parseArgsLoop, specTopSegs]
      by_cases h : (c = ',' ∧ (argScanStep p c s).depth = 0 ∧
          (argScanStep p c s).inString = false)
      · rw [if_pos h, if_pos h, ih]
        rw [List.map_cons,
          dropLastBlank_cons_ne _ _
            (by
              intro hmap
              exact specTopSegs_ne_nil rest (some c) (argScanStep p c s) []
                (List.map_eq_nil_iff.mp hmap))]
        simp [jsTrim]
      · rw [if_neg h, if_neg h, ih]

/-- The spec-side segment count is one more than the splitting-comma count. -/
theorem specTopSegs_length (cs : List Char) :
    ∀ (p : Option Char) (s : ScanState) (cur : List Char),
      (specTopSegs p s cs cur).length = countTopCommas p s cs + 1 := by
  induction cs with
  | nil => intro p s cur; simp [specTopSegs, countTopCommas]
  | cons c rest ih =>
      intro p s cur
      rw [specTopSegs, countTopCommas]
      by_cases h : (c = ',' ∧ (argScanStep p c s).depth = 0 ∧
          (argScanStep p c s).inString = false)
      · rw [if_pos h, if_pos h]
        simp [ih]
        omega
      · rw [if_neg h, if_neg h]
        simp [ih]

end TokenizerProofs

/-- C2: for every argument blob whose parentheses, brackets, braces and
string literals are balanced (and whose top-level comma-separated arguments
are all non-blank), `parseArgs` splits exactly at the commas at nesting depth
zero outside string literals: it returns the trimmed top-level segments, so a
blob with N top-level arguments yields exactly N entries and commas nested
inside quotes, parens, brackets or braces never cause a split. -/
theorem parseArgs_splits_top_level (blob : String)
    (hbal : Tokenizer.balancedArgString blob)
    (hblob : JS.jsTrim blob ≠ "")
    (hsegs : ∀ seg ∈ Tokenizer.specTopLevelArgs blob, JS.jsTrim seg ≠ "") :
    Tokenizer.parseArgs blob = (Tokenizer.specTopLevelArgs blob).map JS.jsTrim ∧
      (Tokenizer.parseArgs blob).length =
        Tokenizer.countTopCommas none Tokenizer.initScan blob.data + 1 := by
  have hmain : Tokenizer.parseArgs blob =
      (Tokenizer.specTopLevelArgs blob).map JS.jsTrim := by
    rw [Tokenizer.parseArgs, if_neg hblob, parseArgsLoop_eq]
    rw [dropLastBlank_of_ne]
    · rfl
    · intro x hx
      rcases List.mem_map.mp hx with ⟨seg, hseg, rfl⟩
      exact hsegs seg hseg
  refine ⟨hmain, ?_⟩
  rw [hmain, List.length_map]
  exact specTopSegs_length blob.data none Tokenizer.initScan []

/-- Witness for C2 at the blob `"a,b", f(1,2), [3,4]`: the hypotheses hold
and the blob parses to its three trimmed top-level arguments. -/
theorem parseArgs_splits_top_level_witness :
    (Tokenizer.balancedArgString "\"a,b\", f(1,2), [3,4]" ∧
      JS.jsTrim "\"a,b\", f(1,2), [3,4]" ≠ "" ∧
      (∀ seg ∈ Tokenizer.specTopLevelArgs "\"a,b\", f(1,2), [3,4]",
        JS.jsTrim seg ≠ "")) ∧
    (Tokenizer.parseArgs "\"a,b\", f(1,2), [3,4]" =
        (Tokenizer.specTopLevelArgs "\"a,b\", f(1,2), [3,4]").map JS.jsTrim ∧
      (Tokenizer.parseArgs "\"a,b\", f(1,2), [3,4]").length =
        Tokenizer.countTopCommas none Tokenizer.initScan
          ("\"a,b\", f(1,2), [3,4]" : String).data + 1) :=
  ⟨⟨by decide, by decide, by decide⟩,
    parseArgs_splits_top_level "\"a,b\", f(1,2), [3,4]"
      (by decide) (by decide) (by decide)⟩

section DatabaseExtractorProofs

open JS Tokenizer Aspire DatabaseExtractor

/-- A chained method that is neither the tag setter nor `RunAsContainer`
leaves the image tag unchanged; one that is neither the image setter nor
`RunAsContainer` leaves the image unchanged. -/
theorem db_applyMethod_preserve (db db2 : Database) (m : MethodCall)
    (h : applyMethod db m = .ok db2) :
    ((m.method ≠ "WithImageTag" ∧ m.method ≠ "RunAsContainer") →
      db2.imageTag = db.imageTag) ∧
    ((m.method ≠ "WithImage" ∧ m.method ≠ "RunAsContainer") →
      db2.image = db.image) := by
  unfold applyMethod at h
  split_ifs at h with h1 h2 h3 h4 h5 h6
  · cases h
    exact ⟨fun _ => rfl, fun hc => absurd h1 hc.1⟩
  · cases h
    exact ⟨fun hc => absurd h2 hc.1, fun _ => rfl⟩
  · have hp : db2.imageTag = db.imageTag ∧ db2.image = db.image := by
      split at h
      · split_ifs at h <;> (cases h; exact ⟨rfl, rfl⟩)
      · cases h; exact ⟨rfl, rfl⟩
    exact ⟨fun _ => hp.1, fun _ => hp.2⟩
  · cases h
    exact ⟨fun _ => rfl, fun _ => rfl⟩
  · have hp : db2.imageTag = db.imageTag ∧ db2.image = db.image := by
      split at h <;> (cases h; exact ⟨rfl, rfl⟩)
    exact ⟨fun _ => hp.1, fun _ => hp.2⟩
  · exact ⟨fun hc => absurd h6 hc.2, fun hc => absurd h6 hc.2⟩
  · cases h
    exact ⟨fun _ => rfl, fun _ => rfl⟩

/-- The `WithImageTag` handler overwrites the image tag with the call's first
quoted string. -/
theorem db_applyMethod_imageTag_set (db : Database) (m : MethodCall)
    (hm : m.method = "WithImageTag") :
    applyMethod db m =
      .ok { db with imageTag := jsOrUndef (extractFirstStringArg m.rawArgs) } := by
  unfold applyMethod
  rw [if_neg (by rw [hm]; decide), if_pos hm]

/-- The `WithImage` handler overwrites the image with the call's first quoted
string. -/
theorem db_applyMethod_image_set (db : Database) (m : MethodCall)
    (hm : m.method = "WithImage") :
    applyMethod db m =
      .ok { db with image := jsOrUndef (extractFirstStringArg m.rawArgs) } := by
  unfold applyMethod
  rw [if_pos hm]

/-- The chained-method loop splits over list concatenation. -/
theorem db_processMethods_append (l1 l2 : List MethodCall) :
    ∀ db : Database, processMethods db (l1 ++ l2) =
      match processMethods db l1 with
      | .ok mid => processMethods mid l2
      | .error e => .error e := by
  induction l1 with
  | nil => intro db; simp [processMethods]
  | cons m ms ih =>
      intro db
      rw [List.cons_append, processMethods, processMethods]
      cases h : applyMethod db m with
      | error e => rfl
      | ok mid => exact ih mid

/-- Replaying methods none of which sets the image tag preserves it. -/
theorem db_processMethods_imageTag_pres (ms : List MethodCall) :
    ∀ db db2 : Database, processMethods db ms = .ok db2 →
      (∀ m ∈ ms, m.method ≠ "WithImageTag" ∧ m.method ≠ "RunAsContainer") →
      db2.imageTag = db.imageTag := by
  induction ms with
  | nil =>
      intro db db2 h _
      cases h
      rfl
  | cons m ms ih =>
      intro db db2 h hall
      rw [processMethods] at h
      cases hap : applyMethod db m with
      | error e => rw [hap] at h; cases h
      | ok mid =>
          rw [hap] at h
          have h1 := ih mid db2 h (fun x hx => hall x (by simp [hx]))
          have h2 := (db_applyMethod_preserve db mid m hap).1 (hall m (by simp))
          rw [h1, h2]

/-- Replaying methods none of which sets the image preserves it. -/
theorem db_processMethods_image_pres (ms : List MethodCall) :
    ∀ db db2 : Database, processMethods db ms = .ok db2 →
      (∀ m ∈ ms, m.method ≠ "WithImage" ∧ m.method ≠ "RunAsContainer") →
      db2.image = db.image := by
  induction ms with
  | nil =>
      intro db db2 h _
      cases h
      rfl
  | cons m ms ih =>
      intro db db2 h hall
      rw [processMethods] at h
      cases hap : applyMethod db m with
      | error e => rw [hap] at h; cases h
      | ok mid =>
          rw [hap] at h
          have h1 := ih mid db2 h (fun x hx => hall x (by simp [hx]))
          have h2 := (db_applyMethod_preserve db mid m hap).2 (hall m (by simp))
          rw [h1, h2]

end DatabaseExtractorProofs

/-- C8: for every data-store chain with two or more image-tag-setting calls,
the extracted record's image tag is the value of the last such call in source
order (overwrite, not accumulation), and likewise for the image-setting
call. -/
theorem image_tag_last_write_wins
    (chain : Tokenizer.FluentChain) (db : Aspire.Database)
    (pre1 post1 pre2 post2 : List Tokenizer.MethodCall)
    (c1 c2 : Tokenizer.MethodCall)
    (hdec1 : chain.chainedMethods = pre1 ++ c1 :: post1)
    (hc1 : c1.method = "WithImageTag")
    (hrep1 : ∃ m ∈ pre1, m.method = "WithImageTag")
    (hpost1 : ∀ m ∈ post1, m.method ≠ "WithImageTag" ∧ m.method ≠ "RunAsContainer")
    (hdec2 : chain.chainedMethods = pre2 ++ c2 :: post2)
    (hc2 : c2.method = "WithImage")
    (hrep2 : ∃ m ∈ pre2, m.method = "WithImage")
    (hpost2 : ∀ m ∈ post2, m.method ≠ "WithImage" ∧ m.method ≠ "RunAsContainer")
    (hex : DatabaseExtractor.extractDatabase chain = .ok db) :
    db.imageTag = JS.jsOrUndef (Tokenizer.extractFirstStringArg c1.rawArgs) ∧
      db.image = JS.jsOrUndef (Tokenizer.extractFirstStringArg c2.rawArgs) := by
  unfold DatabaseExtractor.extractDatabase at hex
  constructor
  · rw [hdec1, db_processMethods_append] at hex
    cases hpre : DatabaseExtractor.processMethods _ pre1 with
    | error e => rw [hpre] at hex; cases hex
    | ok mid =>
        rw [hpre] at hex
        simp only [DatabaseExtractor.processMethods,
          db_applyMethod_imageTag_set mid c1 hc1] at hex
        rw [db_processMethods_imageTag_pres post1 _ db hex hpost1]
  · rw [hdec2, db_processMethods_append] at hex
    cases hpre : DatabaseExtractor.processMethods _ pre2 with
    | error e => rw [hpre] at hex; cases hex
    | ok mid =>
        rw [hpre] at hex
        simp only [DatabaseExtractor.processMethods,
          db_applyMethod_image_set mid c2 hc2] at hex
        rw [db_processMethods_image_pres post2 _ db hex hpost2]

/-- Witness for C8: a postgres chain with two image and two image-tag calls
extracts to the record carrying the last image and the last tag. -/
theorem image_tag_last_write_wins_witness :
    (DatabaseExtractor.extractDatabase
        { rootMethod := "AddPostgres", name := "db",
          chainedMethods :=
            [{ method := "WithImage", args := ["\"img-a\""], rawArgs := "\"img-a\"" },
             { method := "WithImageTag", args := ["\"1\""], rawArgs := "\"1\"" },
             { method := "WithImage", args := ["\"img-b\""], rawArgs := "\"img-b\"" },
             { method := "WithImageTag", args := ["\"2\""], rawArgs := "\"2\"" }] } =
      Except.ok
        { name := "db", type := "postgres", image := some "img-b",
          imageTag := some "2", hasDataVolume := false, environment := [] }) ∧
    (({ name := "db", type := "postgres", image := some "img-b",
        imageTag := some "2", hasDataVolume := false, environment := [] } :
          Aspire.Database).imageTag =
        JS.jsOrUndef (Tokenizer.extractFirstStringArg "\"2\"") ∧
      ({ name := "db", type := "postgres", image := some "img-b",
         imageTag := some "2", hasDataVolume := false, environment := [] } :
          Aspire.Database).image =
        JS.jsOrUndef (Tokenizer.extractFirstStringArg "\"img-b\"")) :=
  ⟨by rfl,
    image_tag_last_write_wins
      { rootMethod := "AddPostgres", name := "db",
        chainedMethods :=
          [{ method := "WithImage", args := ["\"img-a\""], rawArgs := "\"img-a\"" },
           { method := "WithImageTag", args := ["\"1\""], rawArgs := "\"1\"" },
           { method := "WithImage", args := ["\"img-b\""], rawArgs := "\"img-b\"" },
           { method := "WithImageTag", args := ["\"2\""], rawArgs := "\"2\"" }] }
      { name := "db", type := "postgres", image := some "img-b",
        imageTag := some "2", hasDataVolume := false, environment := [] }
      [{ method := "WithImage", args := ["\"img-a\""], rawArgs := "\"img-a\"" },
       { method := "WithImageTag", args := ["\"1\""], rawArgs := "\"1\"" },
       { method := "WithImage", args := ["\"img-b\""], rawArgs := "\"img-b\"" }]
      []
      [{ method := "WithImage", args := ["\"img-a\""], rawArgs := "\"img-a\"" },
       { method := "WithImageTag", args := ["\"1\""], rawArgs := "\"1\"" }]
      [{ method := "WithImageTag", args := ["\"2\""], rawArgs := "\"2\"" }]
      { method := "WithImageTag", args := ["\"2\""], rawArgs := "\"2\"" }
      { method := "WithImage", args := ["\"img-b\""], rawArgs := "\"img-b\"" }
      (by decide) (by decide) (by decide) (by decide)
      (by decide) (by decide) (by decide) (by decide) (by rfl)⟩

section ApplicationExtractorProofs

open JS Tokenizer Aspire ApplicationExtractor

/-- The seed record of `extractApplication` has no wait-for list yet. -/
theorem appSeed_waitFor_none (chain : FluentChain) :
    (appSeed chain).waitFor = none := by
  dsimp only [appSeed]
  repeat' split <;> try rfl

set_option maxHeartbeats 1000000 in
/-- A chained method other than `WaitFor` leaves the wait-for list
unchanged. -/
theorem app_applyMethod_waitFor_pres (a a2 : Application) (m : MethodCall)
    (h : applyMethod a m = .ok a2) (hm : m.method ≠ "WaitFor") :
    a2.waitFor = a.waitFor := by
  unfold applyMethod at h
  by_cases h1 : m.method = "WithEnvironment"
  · rw [if_pos h1] at h
    split at h <;> (cases h; rfl)
  · rw [if_neg h1] at h
    by_cases h2 : m.method = "WithHttpEndpoint"
    · rw [if_pos h2] at h
      cases h; rfl
    · rw [if_neg h2] at h
      by_cases h3 : m.method = "WithHttpsEndpoint"
      · rw [if_pos h3] at h
        cases h; rfl
      · rw [if_neg h3] at h
        by_cases h4 : m.method = "WithExternalHttpEndpoints"
        · rw [if_pos h4] at h
          cases h; rfl
        · rw [if_neg h4] at h
          by_cases h5 : m.method = "WithReference"
          · rw [if_pos h5] at h
            split at h <;> (cases h; rfl)
          · rw [if_neg h5] at h
            by_cases h6 : (m.method = "PublishAsDockerFile" ∨
                m.method = "PublishAsDockerfile")
            · rw [if_pos h6] at h
              cases h; rfl
            · rw [if_neg h6] at h
              by_cases h7 : m.method = "PublishAsContainer"
              · rw [if_pos h7] at h
                cases h; rfl
              · rw [if_neg h7] at h
                by_cases h8 : m.method = "WithServiceBinding"
                · rw [if_pos h8] at h
                  (repeat' split at h) <;> (cases h; rfl)
                · rw [if_neg h8] at h
                  rw [if_neg hm] at h
                  by_cases h10 : m.method = "WithRunScript"
                  · rw [if_pos h10] at h
                    split at h
                    · cases h
                    · dsimp only at h
                      split at h <;> (cases h; rfl)
                  · rw [if_neg h10] at h
                    by_cases h11 : m.method = "WithNpm"
                    · rw [if_pos h11] at h
                      dsimp only at h
                      split at h
                      · split at h <;> (cases h; rfl)
                      · cases h; rfl
                    · rw [if_neg h11] at h
                      cases h; rfl

/-- The `WaitFor` handler branches on the resolved target. -/
theorem app_applyMethod_waitFor_eq (a : Application) (m : MethodCall)
    (hm : m.method = "WaitFor") :
    applyMethod a m =
      match extractReferenceTarget m.args.head? with
      | some t => .ok { a with waitFor := some ((a.waitFor.getD []) ++ [t]) }
      | none => .ok a := by
  unfold applyMethod
  rw [if_neg (by simp [hm]), if_neg (by simp [hm]), if_neg (by simp [hm]),
    if_neg (by simp [hm]), if_neg (by simp [hm]), if_neg (by simp [hm]),
    if_neg (by simp [hm]), if_neg (by simp [hm]), if_pos hm]

/-- Each chained method appends exactly its wait-for contribution (empty for
every method other than a resolvable `WaitFor`) to the dependency list. -/
theorem app_applyMethod_waitList (a a2 : Application) (m : MethodCall)
    (h : applyMethod a m = .ok a2) :
    a2.waitFor.getD [] = (a.waitFor.getD []) ++ (waitTargetOf m).toList := by
  by_cases hm : m.method = "WaitFor"
  · rw [app_applyMethod_waitFor_eq a m hm] at h
    unfold waitTargetOf
    rw [if_pos hm]
    split at h <;> (cases h; simp_all)
  · rw [app_applyMethod_waitFor_pres a a2 m h hm]
    unfold waitTargetOf
    rw [if_neg hm]
    simp

/-- The chained-method loop accumulates the wait-for targets in order. -/
theorem app_processMethods_waitList (ms : List MethodCall) :
    ∀ a a2 : Application, processMethods a ms = .ok a2 →
      a2.waitFor.getD [] = (a.waitFor.getD []) ++ ms.filterMap waitTargetOf := by
  induction ms with
  | nil =>
      intro a a2 h
      cases h
      simp
  | cons m ms ih =>
      intro a a2 h
      rw [processMethods] at h
      cases hap : applyMethod a m with
      | error e => rw [hap] at h; cases h
      | ok mid =>
          rw [hap] at h
          rw [ih mid a2 h, app_applyMethod_waitList a mid m hap]
          cases hw : waitTargetOf m <;> simp [List.filterMap_cons, hw]

end ApplicationExtractorProofs

/-- C9: for every application chain containing two wait-for declarations with
different resolvable targets, the extracted record's dependency list contains
both targets, in the order the declarations appear in the chain (append, not
overwrite). -/
theorem wait_for_accumulates
    (chain : Tokenizer.FluentChain) (app : Aspire.Application)
    (l1 l2 l3 : List Tokenizer.MethodCall) (w1 w2 : Tokenizer.MethodCall)
    (t1 t2 : String)
    (hdec : chain.chainedMethods = l1 ++ w1 :: (l2 ++ w2 :: l3))
    (hw1 : w1.method = "WaitFor")
    (hw2 : w2.method = "WaitFor")
    (ht1 : ApplicationExtractor.extractReferenceTarget w1.args.head? = some t1)
    (ht2 : ApplicationExtractor.extractReferenceTarget w2.args.head? = some t2)
    (hne : t1 ≠ t2)
    (hex : ApplicationExtractor.extractApplication chain = .ok app) :
    ∃ u v w : List String,
      app.waitFor.getD [] = u ++ t1 :: (v ++ t2 :: w) := by
  unfold ApplicationExtractor.extractApplication at hex
  have hlist := app_processMethods_waitList chain.chainedMethods _ app hex
  rw [appSeed_waitFor_none, hdec] at hlist
  refine ⟨l1.filterMap ApplicationExtractor.waitTargetOf,
    l2.filterMap ApplicationExtractor.waitTargetOf,
    l3.filterMap ApplicationExtractor.waitTargetOf, ?_⟩
  rw [hlist]
  have hv1 : ApplicationExtractor.waitTargetOf w1 = some t1 := by
    rw [ApplicationExtractor.waitTargetOf, if_pos hw1, ht1]
  have hv2 : ApplicationExtractor.waitTargetOf w2 = some t2 := by
    rw [ApplicationExtractor.waitTargetOf, if_pos hw2, ht2]
  simp [List.filterMap_append, List.filterMap_cons, hv1, hv2]

/-- Witness for C9: an npm application chain with `WaitFor(db1)` then
`WaitFor(db2)` extracts to a record whose dependency list is `[db1, db2]`. -/
theorem wait_for_accumulates_witness :
    (ApplicationExtractor.extractApplication
        { rootMethod := "AddNpmApp", name := "webapp",
          chainedMethods :=
            [{ method := "WaitFor", args := ["db1"], rawArgs := "db1" },
             { method := "WaitFor", args := ["db2"], rawArgs := "db2" }] } =
      Except.ok
        { name := "webapp", type := "npm", buildPack := "nixpacks",
          waitFor := some ["db1", "db2"] } ∧
      ("db1" : String) ≠ "db2") ∧
    (∃ u v w : List String,
      ({ name := "webapp", type := "npm", buildPack := "nixpacks",
         waitFor := some ["db1", "db2"] } : Aspire.Application).waitFor.getD [] =
        u ++ "db1" :: (v ++ "db2" :: w)) :=
  ⟨⟨by rfl, by decide⟩,
    wait_for_accumulates
      { rootMethod := "AddNpmApp", name := "webapp",
        chainedMethods :=
          [{ method := "WaitFor", args := ["db1"], rawArgs := "db1" },
           { method := "WaitFor", args := ["db2"], rawArgs := "db2" }] }
      { name := "webapp", type := "npm", buildPack := "nixpacks",
        waitFor := some ["db1", "db2"] }
      [] [] []
      { method := "WaitFor", args := ["db1"], rawArgs := "db1" }
      { method := "WaitFor", args := ["db2"], rawArgs := "db2" }
      "db1" "db2"
      (by rfl) (by rfl) (by rfl) (by decide) (by decide) (by decide) (by rfl)⟩

section ChildStoreProofs

open JS Tokenizer Aspire DatabaseExtractor

/-- Nested container-lambda calls never change the record's bound variable. -/
theorem db_processNestedMethod_varName (db db2 : Database) (n : NestedCall)
    (h : processNestedMethod db n = .ok db2) :
    db2.variableName = db.variableName := by
  unfold processNestedMethod at h
  split_ifs at h with h1 h2 h3 h4 <;>
    (repeat' split at h) <;> first | (cases h; rfl) | cases h

/-- Replaying nested calls never changes the record's bound variable. -/
theorem db_processNestedList_varName (ns : List NestedCall) :
    ∀ db db2 : Database, processNestedList db ns = .ok db2 →
      db2.variableName = db.variableName := by
  induction ns with
  | nil =>
      intro db db2 h
      cases h
      rfl
  | cons n ns ih =>
      intro db db2 h
      rw [processNestedList] at h
      cases hn : processNestedMethod db n with
      | error e => rw [hn] at h; cases h
      | ok mid =>
          rw [hn] at h
          rw [ih mid db2 h, db_processNestedMethod_varName db mid n hn]

/-- A chained method never changes the record's bound variable. -/
theorem db_applyMethod_varName (db db2 : Database) (m : MethodCall)
    (h : applyMethod db m = .ok db2) :
    db2.variableName = db.variableName := by
  unfold applyMethod at h
  split_ifs at h with h1 h2 h3 h4 h5 h6
  · cases h; rfl
  · cases h; rfl
  · (repeat' split at h) <;> (cases h; rfl)
  · cases h; rfl
  · split at h <;> (cases h; rfl)
  · exact db_processNestedList_varName _ db db2 h
  · cases h; rfl

/-- The chained-method loop never changes the record's bound variable. -/
theorem db_processMethods_varName (ms : List MethodCall) :
    ∀ db db2 : Database, processMethods db ms = .ok db2 →
      db2.variableName = db.variableName := by
  induction ms with
  | nil =>
      intro db db2 h
      cases h
      rfl
  | cons m ms ih =>
      intro db db2 h
      rw [processMethods] at h
      cases hap : applyMethod db m with
      | error e => rw [hap] at h; cases h
      | ok mid =>
          rw [hap] at h
          rw [ih mid db2 h, db_applyMethod_varName db mid m hap]

/-- The extracted record's bound variable is the chain's bound variable. -/
theorem extractDatabase_varName (chain : FluentChain) (db : Database)
    (h : extractDatabase chain = .ok db) :
    db.variableName = chain.variableName :=
  db_processMethods_varName chain.chainedMethods _ db h

end ChildStoreProofs

/-- C1: for a parent store chain bound to a variable and a child
`AddDatabase` chain whose base object is that variable, the assembled model's
store collection contains exactly one entry, named after the child and
carrying the parent's extracted image, image tag, host port and data-volume
flag, and no entry named after the parent. -/
theorem child_store_dedup_inheritance
    (p c : Tokenizer.FluentChain) (v : String) (pdb : Aspire.Database)
    (hdb : DatabaseExtractor.isDatabaseChain p = true)
    (hpv : p.variableName = some v)
    (hv : v ≠ "")
    (hcroot : c.rootMethod = "AddDatabase")
    (hcbase : c.baseObject = some v)
    (hpx : DatabaseExtractor.extractDatabase p = Except.ok pdb)
    (hname : c.name ≠ p.name) :
    (Parser.assembleFromChains [p, c]).1.databases.length = 1 ∧
      (∀ d ∈ (Parser.assembleFromChains [p, c]).1.databases,
        d.name = c.name ∧ d.image = pdb.image ∧ d.imageTag = pdb.imageTag ∧
          d.hostPort = pdb.hostPort ∧ d.hasDataVolume = pdb.hasDataVolume) ∧
      (∀ d ∈ (Parser.assembleFromChains [p, c]).1.databases, d.name ≠ p.name) := by
  have hcnotdb : DatabaseExtractor.isDatabaseChain c = false := by
    unfold DatabaseExtractor.isDatabaseChain
    rw [hcroot]
    decide
  have hcnotcont : ContainerExtractor.isContainerChain c = false := by
    unfold ContainerExtractor.isContainerChain
    rw [hcroot]
    decide
  have hcnotapp : ApplicationExtractor.isApplicationChain c = false := by
    unfold ApplicationExtractor.isApplicationChain
    rw [hcroot]
    decide
  have hpneq : p.rootMethod ≠ "AddDatabase" := by
    intro hEq
    unfold DatabaseExtractor.isDatabaseChain at hdb
    rw [hEq] at hdb
    exact absurd hdb (by decide)
  have hpdbv : pdb.variableName = some v := by
    rw [extractDatabase_varName p pdb hpx, hpv]
  have h1 : Parser.classifyChains [p, c] =
      ({ services := [], databases := [pdb], storage := [], applications := [],
         references := [] }, []) := by
    unfold Parser.classifyChains
    simp only [List.foldl_cons, List.foldl_nil]
    unfold Parser.classifyChain
    simp [Aspire.createEmptyAspireApp, hdb, hpx, hcnotdb, hcnotcont, hcnotapp]
  have h2 : DatabaseExtractor.extractChildDatabases [p, c] =
      .ok [{ name := c.name,
             type := (DatabaseExtractor.DATABASE_METHODS p.rootMethod).getD "postgres",
             variableName := c.variableName,
             serverName := some p.name,
             serverVariableName := some v,
             image := pdb.image, imageTag := pdb.imageTag, hostPort := pdb.hostPort,
             hasDataVolume := pdb.hasDataVolume,
             environment := pdb.environment }] := by
    unfold DatabaseExtractor.extractChildDatabases
    unfold DatabaseExtractor.extractChildDatabasesGo
    unfold DatabaseExtractor.extractChildDatabasesGo
    unfold DatabaseExtractor.extractChildDatabasesGo
    unfold DatabaseExtractor.childDbFor
    simp [hpneq, hcroot, hpv, hcbase, hpx]
  have h3 : (Parser.assembleFromChains [p, c]).1.databases =
      [{ name := c.name,
         type := (DatabaseExtractor.DATABASE_METHODS p.rootMethod).getD "postgres",
         variableName := c.variableName,
         serverName := some p.name,
         serverVariableName := some v,
         image := pdb.image, imageTag := pdb.imageTag, hostPort := pdb.hostPort,
         hasDataVolume := pdb.hasDataVolume,
         environment := pdb.environment }] := by
    unfold Parser.assembleFromChains
    rw [h1, h2]
    unfold Parser.mergeChildDatabases Parser.serversWithChildren
    simp [hpdbv, hv, JS.optStrTruthy]
  refine ⟨by rw [h3]; rfl, ?_, ?_⟩
  · intro d hd
    rw [h3] at hd
    rcases List.mem_singleton.mp hd with rfl
    exact ⟨rfl, rfl, rfl, rfl, rfl⟩
  · intro d hd
    rw [h3] at hd
    rcases List.mem_singleton.mp hd with rfl
    exact hname

/-- Witness for C1: a postgres server chain bound to `server` with image,
host port and data volume, and a child chain `server.AddDatabase(mydb)`. -/
theorem child_store_dedup_inheritance_witness :
    (DatabaseExtractor.isDatabaseChain
        { variableName := some "server", rootMethod := "AddPostgres", name := "pg-server",
          chainedMethods :=
            [{ method := "WithImage", args := ["\"pgimg\""], rawArgs := "\"pgimg\"" },
             { method := "WithHostPort", args := ["5432"], rawArgs := "5432" },
             { method := "WithDataVolume", args := [], rawArgs := "" }] } = true ∧
      ("server" : String) ≠ "" ∧
      DatabaseExtractor.extractDatabase
        { variableName := some "server", rootMethod := "AddPostgres", name := "pg-server",
          chainedMethods :=
            [{ method := "WithImage", args := ["\"pgimg\""], rawArgs := "\"pgimg\"" },
             { method := "WithHostPort", args := ["5432"], rawArgs := "5432" },
             { method := "WithDataVolume", args := [], rawArgs := "" }] } =
        Except.ok
          { name := "pg-server", type := "postgres", variableName := some "server",
            image := some "pgimg", hostPort := some 5432, hasDataVolume := true,
            environment := [] } ∧
      ("mydb" : String) ≠ "pg-server") ∧
    ((Parser.assembleFromChains
        [{ variableName := some "server", rootMethod := "AddPostgres", name := "pg-server",
           chainedMethods :=
             [{ method := "WithImage", args := ["\"pgimg\""], rawArgs := "\"pgimg\"" },
              { method := "WithHostPort", args := ["5432"], rawArgs := "5432" },
              { method := "WithDataVolume", args := [], rawArgs := "" }] },
         { variableName := some "db", baseObject := some "server",
           rootMethod := "AddDatabase", name := "mydb" }]).1.databases.length = 1 ∧
      (∀ d ∈ (Parser.assembleFromChains
        [{ variableName := some "server", rootMethod := "AddPostgres", name := "pg-server",
           chainedMethods :=
             [{ method := "WithImage", args := ["\"pgimg\""], rawArgs := "\"pgimg\"" },
              { method := "WithHostPort", args := ["5432"], rawArgs := "5432" },
              { method := "WithDataVolume", args := [], rawArgs := "" }] },
         { variableName := some "db", baseObject := some "server",
           rootMethod := "AddDatabase", name := "mydb" }]).1.databases,
        d.name = "mydb" ∧ d.image = some "pgimg" ∧ d.imageTag = none ∧
          d.hostPort = some 5432 ∧ d.hasDataVolume = true) ∧
      (∀ d ∈ (Parser.assembleFromChains
        [{ variableName := some "server", rootMethod := "AddPostgres", name := "pg-server",
           chainedMethods :=
             [{ method := "WithImage", args := ["\"pgimg\""], rawArgs := "\"pgimg\"" },
              { method := "WithHostPort", args := ["5432"], rawArgs := "5432" },
              { method := "WithDataVolume", args := [], rawArgs := "" }] },
         { variableName := some "db", baseObject := some "server",
           rootMethod := "AddDatabase", name := "mydb" }]).1.databases,
        d.name ≠ "pg-server")) :=
  ⟨⟨by decide, by decide, by rfl, by decide⟩,
    child_store_dedup_inheritance
      { variableName := some "server", rootMethod := "AddPostgres", name := "pg-server",
        chainedMethods :=
          [{ method := "WithImage", args := ["\"pgimg\""], rawArgs := "\"pgimg\"" },
           { method := "WithHostPort", args := ["5432"], rawArgs := "5432" },
           { method := "WithDataVolume", args := [], rawArgs := "" }] }
      { variableName := some "db", baseObject := some "server",
        rootMethod := "AddDatabase", name := "mydb" }
      "server"
      { name := "pg-server", type := "postgres", variableName := some "server",
        image := some "pgimg", hostPort := some 5432, hasDataVolume := true,
        environment := [] }
      (by decide) (by rfl) (by decide) (by rfl) (by rfl) (by rfl) (by decide)⟩

section ReferenceProofs

open Aspire Parser

/-- The connection-string environment-variable table never yields an empty
name (the default branch covers unrecognized kinds). -/
theorem getConnectionStringEnvName_ne_empty (dbType : String) :
    getConnectionStringEnvName dbType ≠ "" := by
  unfold getConnectionStringEnvName
  split_ifs <;> decide

end ReferenceProofs

/-- C7: in a model where the single application declares one reference equal
to the single store's bound variable, the reference-edge list is exactly one
edge from the application's name to the store's declared name, carrying a
non-empty connection-string environment-variable name. -/
theorem reference_resolution_edge
    (m : Aspire.AspireApp) (a : Aspire.Application) (d : Aspire.Database) (r : String)
    (hdbs : m.databases = [d])
    (hsvcs : m.services = [])
    (hstor : m.storage = [])
    (happs : m.applications = [a])
    (hrefs : a.references = [r])
    (hvar : d.variableName = some r) :
    Parser.buildReferences m =
      [{ from_ := a.name, to_ := d.name,
         connectionStringEnv := some (Parser.getConnectionStringEnvName d.type) }] ∧
      Parser.getConnectionStringEnvName d.type ≠ "" := by
  constructor
  · unfold Parser.buildReferences
    rw [happs, hsvcs]
    simp only [List.foldl_cons, List.foldl_nil, List.nil_append]
    unfold Parser.refEdgesForApp
    rw [hrefs, hdbs]
    simp [hvar]
  · exact getConnectionStringEnvName_ne_empty d.type

/-- Witness for C7: one postgres store bound to `db`, one application
`webapp` referencing `db`; the edge list is `[webapp -> mydb]` with the
postgres connection-string variable name. -/
theorem reference_resolution_edge_witness :
    (({ databases := [{ name := "mydb", type := "postgres", variableName := some "db", hasDataVolume := false, environment := [] }], services := [], storage := [], applications := [{ name := "webapp", type := "npm", buildPack := "nixpacks", references := ["db"] }], references := [] } : Aspire.AspireApp).databases =
        [{ name := "mydb", type := "postgres", variableName := some "db", hasDataVolume := false, environment := [] }] ∧
      (["db"] : List String) = ["db"] ∧
      (some "db" : Option String) = some "db") ∧
    (Parser.buildReferences
        { databases := [{ name := "mydb", type := "postgres", variableName := some "db", hasDataVolume := false, environment := [] }], services := [], storage := [], applications := [{ name := "webapp", type := "npm", buildPack := "nixpacks", references := ["db"] }], references := [] } =
        [{ from_ := "webapp", to_ := "mydb", connectionStringEnv := some (Parser.getConnectionStringEnvName "postgres") }] ∧
      Parser.getConnectionStringEnvName "postgres" ≠ "") :=
  ⟨⟨by decide, by decide, by decide⟩,
    reference_resolution_edge
      { databases := [{ name := "mydb", type := "postgres", variableName := some "db", hasDataVolume := false, environment := [] }], services := [], storage := [], applications := [{ name := "webapp", type := "npm", buildPack := "nixpacks", references := ["db"] }], references := [] }
      { name := "webapp", type := "npm", buildPack := "nixpacks", references := ["db"] }
      { name := "mydb", type := "postgres", variableName := some "db", hasDataVolume := false, environment := [] }
      "db"
      (by rfl) (by rfl) (by rfl) (by rfl) (by rfl) (by rfl)⟩

section GeneratorProofs

open Aspire CoolifyGen

/-- A push-style fold is appending the mapped list. -/
theorem foldl_push_eq_map {α β : Type} (f : α → β) (l : List α) :
    ∀ init : List β, l.foldl (fun acc x => acc ++ [f x]) init = init ++ l.map f := by
  induction l with
  | nil => intro init; simp
  | cons x xs ih => intro init; simp [ih]

/-- Post-processing a generated command never changes its command tag. -/
theorem postProcess_command (globalArgs : List String) (ic : Option Bool)
    (cmd : CoolifyCommand) : (postProcess globalArgs ic cmd).command = cmd.command := by
  unfold postProcess
  split_ifs <;> rfl

end GeneratorProofs

/-- C6: for every model with at least one resource of each category, the
generated operation list holds all database commands first, then all
storage-service commands, then all generic-service commands, then all
application commands, regardless of how the model was populated. -/
theorem generate_category_order (app : Aspire.AspireApp)
    (options : CoolifyGen.GenerateOptions)
    (h1 : app.databases ≠ []) (h2 : app.storage ≠ [])
    (h3 : app.services ≠ []) (h4 : app.applications ≠ []) :
    (CoolifyGen.generate app options).commands =
      app.databases.map (fun db => CoolifyGen.postProcess
          (CoolifyGen.globalArgsOf options) options.includeComments
          (CoolifyGen.generateDatabaseCommand db)) ++
        app.storage.map (fun st => CoolifyGen.postProcess
          (CoolifyGen.globalArgsOf options) options.includeComments
          (CoolifyGen.generateStorageCommand st)) ++
        app.services.map (fun sv => CoolifyGen.postProcess
          (CoolifyGen.globalArgsOf options) options.includeComments
          (CoolifyGen.generateServiceCommand sv)) ++
        app.applications.map (fun ap => CoolifyGen.postProcess
          (CoolifyGen.globalArgsOf options) options.includeComments
          (CoolifyGen.generateApplicationCommand ap app)) ∧
    ((CoolifyGen.generate app options).commands.map (fun cmd => cmd.command) =
      app.databases.map (fun _ => "database:create") ++
        app.storage.map (fun _ => "service:create") ++
        app.services.map (fun _ => "service:create") ++
        app.applications.map (fun _ => "application:create")) := by
  have hmain : (CoolifyGen.generate app options).commands =
      app.databases.map (fun db => CoolifyGen.postProcess
          (CoolifyGen.globalArgsOf options) options.includeComments
          (CoolifyGen.generateDatabaseCommand db)) ++
        app.storage.map (fun st => CoolifyGen.postProcess
          (CoolifyGen.globalArgsOf options) options.includeComments
          (CoolifyGen.generateStorageCommand st)) ++
        app.services.map (fun sv => CoolifyGen.postProcess
          (CoolifyGen.globalArgsOf options) options.includeComments
          (CoolifyGen.generateServiceCommand sv)) ++
        app.applications.map (fun ap => CoolifyGen.postProcess
          (CoolifyGen.globalArgsOf options) options.includeComments
          (CoolifyGen.generateApplicationCommand ap app)) := by
    unfold CoolifyGen.generate
    dsimp only
    rw [foldl_push_eq_map, foldl_push_eq_map, foldl_push_eq_map, foldl_push_eq_map]
    simp [List.append_assoc]
  refine ⟨hmain, ?_⟩
  rw [hmain]
  simp only [List.map_append, List.map_map]
  have e1 : List.map
      ((fun cmd => cmd.command) ∘ fun db => CoolifyGen.postProcess
        (CoolifyGen.globalArgsOf options) options.includeComments
        (CoolifyGen.generateDatabaseCommand db)) app.databases =
      app.databases.map (fun _ => "database:create") :=
    List.map_congr_left (fun db _ => by
      simp only [Function.comp_apply, postProcess_command]
      rfl)
  have e2 : List.map
      ((fun cmd => cmd.command) ∘ fun st => CoolifyGen.postProcess
        (CoolifyGen.globalArgsOf options) options.includeComments
        (CoolifyGen.generateStorageCommand st)) app.storage =
      app.storage.map (fun _ => "service:create") :=
    List.map_congr_left (fun st _ => by
      simp only [Function.comp_apply, postProcess_command]
      rfl)
  have e3 : List.map
      ((fun cmd => cmd.command) ∘ fun sv => CoolifyGen.postProcess
        (CoolifyGen.globalArgsOf options) options.includeComments
        (CoolifyGen.generateServiceCommand sv)) app.services =
      app.services.map (fun _ => "service:create") :=
    List.map_congr_left (fun sv _ => by
      simp only [Function.comp_apply, postProcess_command]
      rfl)
  have e4 : List.map
      ((fun cmd => cmd.command) ∘ fun ap => CoolifyGen.postProcess
        (CoolifyGen.globalArgsOf options) options.includeComments
        (CoolifyGen.generateApplicationCommand ap app)) app.applications =
      app.applications.map (fun _ => "application:create") :=
    List.map_congr_left (fun ap _ => by
      simp only [Function.comp_apply, postProcess_command]
      rfl)
  rw [e1, e2, e3, e4]

/-- Witness for C6 at a model with one database, one storage service, one
service and one application. -/
theorem generate_category_order_witness :
    (({ services := [{ name := "v1", type := "rabbitmq" }], databases := [{ name := "d1", type := "postgres", hasDataVolume := false, environment := [] }], storage := [{ name := "s1", type := "minio" }], applications := [{ name := "a1", type := "npm", buildPack := "nixpacks" }], references := [] } : Aspire.AspireApp).databases ≠ [] ∧
      ({ services := [{ name := "v1", type := "rabbitmq" }], databases := [{ name := "d1", type := "postgres", hasDataVolume := false, environment := [] }], storage := [{ name := "s1", type := "minio" }], applications := [{ name := "a1", type := "npm", buildPack := "nixpacks" }], references := [] } : Aspire.AspireApp).storage ≠ [] ∧
      ({ services := [{ name := "v1", type := "rabbitmq" }], databases := [{ name := "d1", type := "postgres", hasDataVolume := false, environment := [] }], storage := [{ name := "s1", type := "minio" }], applications := [{ name := "a1", type := "npm", buildPack := "nixpacks" }], references := [] } : Aspire.AspireApp).services ≠ [] ∧
      ({ services := [{ name := "v1", type := "rabbitmq" }], databases := [{ name := "d1", type := "postgres", hasDataVolume := false, environment := [] }], storage := [{ name := "s1", type := "minio" }], applications := [{ name := "a1", type := "npm", buildPack := "nixpacks" }], references := [] } : Aspire.AspireApp).applications ≠ []) ∧
    ((CoolifyGen.generate { services := [{ name := "v1", type := "rabbitmq" }], databases := [{ name := "d1", type := "postgres", hasDataVolume := false, environment := [] }], storage := [{ name := "s1", type := "minio" }], applications := [{ name := "a1", type := "npm", buildPack := "nixpacks" }], references := [] } {}).commands.map (fun cmd => cmd.command) =
      ["database:create", "service:create", "service:create", "application:create"]) :=
  ⟨⟨by decide, by decide, by decide, by decide⟩, by
    have h := (generate_category_order
      { services := [{ name := "v1", type := "rabbitmq" }], databases := [{ name := "d1", type := "postgres", hasDataVolume := false, environment := [] }], storage := [{ name := "s1", type := "minio" }], applications := [{ name := "a1", type := "npm", buildPack := "nixpacks" }], references := [] }
      {} (by decide) (by decide) (by decide) (by decide)).2
    simpa using h⟩

section DeployerProofs

open JS Aspire Deployer

/-- The per-resource loop yields one result per resource, in order. -/
theorem runSteps_fst {α : Type} (step : α → DeployResult × List ClientCall)
    (l : List α) : (runSteps step l).1 = l.map (fun x => (step x).1) := by
  induction l with
  | nil => rfl
  | cons x xs ih => simp [runSteps, ih]

/-- A loop whose step issues no call and computes `f` pointwise is a map. -/
theorem runSteps_eq_of {α : Type} (step : α → DeployResult × List ClientCall)
    (f : α → DeployResult) (l : List α) (h : ∀ x, step x = (f x, [])) :
    runSteps step l = (l.map f, []) := by
  induction l with
  | nil => rfl
  | cons x xs ih => simp [runSteps, h x, ih]

/-- Dry-run database step: placeholder result, no call. -/
theorem deployDatabaseStep_dryRun (client : CoolifyApiClient) (config : DeployConfig)
    (existing : Option ExistingResources) (db : Database) :
    deployDatabaseStep client config true existing db =
      (dryRunResult "database" db.name, []) := rfl

/-- Dry-run storage step: placeholder result, no call. -/
theorem deployStorageStep_dryRun (client : CoolifyApiClient) (config : DeployConfig)
    (existing : Option ExistingResources) (storage : StorageService) :
    deployStorageStep client config true existing storage =
      (dryRunResult "service" storage.name, []) := rfl

/-- Dry-run service step: placeholder result, no call. -/
theorem deployServiceStep_dryRun (client : CoolifyApiClient) (config : DeployConfig)
    (existing : Option ExistingResources) (service : Service) :
    deployServiceStep client config true existing service =
      (dryRunResult "service" service.name, []) := rfl

/-- Dry-run application step: placeholder result, no call. -/
theorem deployApplicationStep_dryRun (client : CoolifyApiClient) (config : DeployConfig)
    (existing : Option ExistingResources) (application : Application) :
    deployApplicationStep client config true existing application =
      (dryRunResult "application" application.name, []) := rfl

end DeployerProofs

/-- C3: deploying with dry-run set invokes no client method at all (no list
call, no create call: the call trace is empty), and the summary has one
placeholder success result per model resource, in the fixed category order. -/
theorem deploy_dry_run_no_calls (client : Deployer.CoolifyApiClient)
    (app : Aspire.AspireApp) (config : Deployer.DeployConfig) :
    Deployer.deployToCloudify client app config true =
      Except.ok
        ({ results :=
            app.databases.map (fun d => Deployer.dryRunResult "database" d.name) ++
              app.storage.map (fun st => Deployer.dryRunResult "service" st.name) ++
              app.services.map (fun sv => Deployer.dryRunResult "service" sv.name) ++
              app.applications.map
                (fun ap => Deployer.dryRunResult "application" ap.name),
           successful := app.databases.length + app.storage.length +
             app.services.length + app.applications.length,
           failed := 0,
           skipped := 0 }, []) ∧
    (∀ rt n : String, (Deployer.dryRunResult rt n).success = true ∧
      (Deployer.dryRunResult rt n).uuid = some "dry-run-uuid") := by
  refine ⟨?_, fun rt n => ⟨rfl, rfl⟩⟩
  have h1 := runSteps_eq_of (Deployer.deployDatabaseStep client config true none)
    (fun d => Deployer.dryRunResult "database" d.name) app.databases (fun d => rfl)
  have h2 := runSteps_eq_of (Deployer.deployStorageStep client config true none)
    (fun st => Deployer.dryRunResult "service" st.name) app.storage (fun st => rfl)
  have h3 := runSteps_eq_of (Deployer.deployServiceStep client config true none)
    (fun sv => Deployer.dryRunResult "service" sv.name) app.services (fun sv => rfl)
  have h4 := runSteps_eq_of (Deployer.deployApplicationStep client config true none)
    (fun ap => Deployer.dryRunResult "application" ap.name) app.applications
    (fun ap => rfl)
  unfold Deployer.deployToCloudify
  rw [if_pos rfl]
  dsimp only
  rw [h1, h2, h3, h4]
  dsimp only
  have hall : ∀ r ∈
      app.databases.map (fun d => Deployer.dryRunResult "database" d.name) ++
        app.storage.map (fun st => Deployer.dryRunResult "service" st.name) ++
        app.services.map (fun sv => Deployer.dryRunResult "service" sv.name) ++
        app.applications.map (fun ap => Deployer.dryRunResult "application" ap.name),
      r.success = true ∧ r.skipped = none := by
    intro r hr
    simp only [List.mem_append, List.mem_map] at hr
    rcases hr with ((⟨x, _, rfl⟩ | ⟨x, _, rfl⟩) | ⟨x, _, rfl⟩) | ⟨x, _, rfl⟩ <;>
      exact ⟨rfl, rfl⟩
  have hsucc : (List.filter
      (fun r => r.success && !(JS.optBoolTruthy r.skipped))
      (app.databases.map (fun d => Deployer.dryRunResult "database" d.name) ++
        app.storage.map (fun st => Deployer.dryRunResult "service" st.name) ++
        app.services.map (fun sv => Deployer.dryRunResult "service" sv.name) ++
        app.applications.map
          (fun ap => Deployer.dryRunResult "application" ap.name))).length =
      app.databases.length + app.storage.length +
        app.services.length + app.applications.length := by
    rw [List.filter_eq_self.mpr]
    · simp
      omega
    · intro r hr
      rcases hall r hr with ⟨hs, hk⟩
      simp [hs, hk, JS.optBoolTruthy]
  have hfail : List.filter (fun r => !r.success)
      (app.databases.map (fun d => Deployer.dryRunResult "database" d.name) ++
        app.storage.map (fun st => Deployer.dryRunResult "service" st.name) ++
        app.services.map (fun sv => Deployer.dryRunResult "service" sv.name) ++
        app.applications.map
          (fun ap => Deployer.dryRunResult "application" ap.name)) = [] := by
    rw [List.filter_eq_nil_iff]
    intro r hr
    simp [(hall r hr).1]
  have hskip : List.filter (fun r => JS.optBoolTruthy r.skipped)
      (app.databases.map (fun d => Deployer.dryRunResult "database" d.name) ++
        app.storage.map (fun st => Deployer.dryRunResult "service" st.name) ++
        app.services.map (fun sv => Deployer.dryRunResult "service" sv.name) ++
        app.applications.map
          (fun ap => Deployer.dryRunResult "application" ap.name)) = [] := by
    rw [List.filter_eq_nil_iff]
    intro r hr
    simp [(hall r hr).2, JS.optBoolTruthy]
  rw [hsucc, hfail, hskip]
  rfl

/-- C4: for a resource whose name maps to a (non-empty) identifier in the
pre-fetched remote inventory, skip-existing yields a skipped success carrying
that identifier, while skip-existing unset or false yields an already-exists
failure; in both cases the step issues no client call.  This holds for all
four resource categories. -/
theorem skip_existing_semantics (client : Deployer.CoolifyApiClient)
    (config : Deployer.DeployConfig) (ex : Deployer.ExistingResources)
    (u : String) (hu : u ≠ "") :
    (∀ db : Aspire.Database, JS.mapGet ex.databases db.name = some u →
      (JS.optBoolTruthy config.skipExisting = true →
        Deployer.deployDatabaseStep client config false (some ex) db =
          (Deployer.skippedResult "database" db.name u, [])) ∧
      (JS.optBoolTruthy config.skipExisting = false →
        Deployer.deployDatabaseStep client config false (some ex) db =
          ({ success := false, resourceType := "database", name := db.name,
             error := some ("Database \"" ++ db.name ++ "\" already exists") }, []))) ∧
    (∀ st : Aspire.StorageService, JS.mapGet ex.services st.name = some u →
      (JS.optBoolTruthy config.skipExisting = true →
        Deployer.deployStorageStep client config false (some ex) st =
          (Deployer.skippedResult "service" st.name u, [])) ∧
      (JS.optBoolTruthy config.skipExisting = false →
        Deployer.deployStorageStep client config false (some ex) st =
          ({ success := false, resourceType := "service", name := st.name,
             error := some ("Storage service \"" ++ st.name ++ "\" already exists") },
           []))) ∧
    (∀ sv : Aspire.Service, JS.mapGet ex.services sv.name = some u →
      (JS.optBoolTruthy config.skipExisting = true →
        Deployer.deployServiceStep client config false (some ex) sv =
          (Deployer.skippedResult "service" sv.name u, [])) ∧
      (JS.optBoolTruthy config.skipExisting = false →
        Deployer.deployServiceStep client config false (some ex) sv =
          ({ success := false, resourceType := "service", name := sv.name,
             error := some ("Service \"" ++ sv.name ++ "\" already exists") }, []))) ∧
    (∀ ap : Aspire.Application, JS.mapGet ex.applications ap.name = some u →
      (JS.optBoolTruthy config.skipExisting = true →
        Deployer.deployApplicationStep client config false (some ex) ap =
          (Deployer.skippedResult "application" ap.name u, [])) ∧
      (JS.optBoolTruthy config.skipExisting = false →
        Deployer.deployApplicationStep client config false (some ex) ap =
          ({ success := false, resourceType := "application", name := ap.name,
             error := some ("Application \"" ++ ap.name ++ "\" already exists") },
           []))) := by
  have hlook : ∀ m : List (String × String), ∀ n : String,
      JS.mapGet m n = some u → Deployer.existingUuidIn (some m) n = some u := by
    intro m n h
    unfold Deployer.existingUuidIn
    simp [h, hu]
  refine ⟨fun db hdb => ?_, fun st hst => ?_, fun sv hsv => ?_, fun ap hap => ?_⟩ <;>
    constructor <;> intro hskip
  · simp [Deployer.deployDatabaseStep, hlook ex.databases db.name hdb, hskip]
  · simp [Deployer.deployDatabaseStep, hlook ex.databases db.name hdb, hskip]
  · simp [Deployer.deployStorageStep, hlook ex.services st.name hst, hskip]
  · simp [Deployer.deployStorageStep, hlook ex.services st.name hst, hskip]
  · simp [Deployer.deployServiceStep, hlook ex.services sv.name hsv, hskip]
  · simp [Deployer.deployServiceStep, hlook ex.services sv.name hsv, hskip]
  · simp [Deployer.deployApplicationStep, hlook ex.applications ap.name hap, hskip]
  · simp [Deployer.deployApplicationStep, hlook ex.applications ap.name hap, hskip]

/-- Witness for C4: a database named `mydb` already present remotely with
identifier `u1`, deployed with skip-existing enabled: the step records a
skipped success carrying `u1` and issues no call. -/
theorem skip_existing_semantics_witness :
    (("u1" : String) ≠ "" ∧
      JS.mapGet [("mydb", "u1")] "mydb" = some "u1" ∧
      JS.optBoolTruthy (some true) = true) ∧
    Deployer.deployDatabaseStep
        (Deployer.mkTestClient (Except.error "x") (Except.error "x") (Except.error "x")
          (Except.error "x") (Except.error "x") (Except.error "x"))
        { projectUuid := "p", serverUuid := "s", environmentName := "e",
          skipExisting := some true }
        false
        (some { databases := [("mydb", "u1")], applications := [], services := [] })
        { name := "mydb", type := "postgres", hasDataVolume := false,
          environment := [] } =
      (Deployer.skippedResult "database" "mydb" "u1", []) :=
  ⟨⟨by decide, by decide, by decide⟩,
    ((skip_existing_semantics
        (Deployer.mkTestClient (Except.error "x") (Except.error "x") (Except.error "x")
          (Except.error "x") (Except.error "x") (Except.error "x"))
        { projectUuid := "p", serverUuid := "s", environmentName := "e",
          skipExisting := some true }
        { databases := [("mydb", "u1")], applications := [], services := [] }
        "u1" (by decide)).1
      { name := "mydb", type := "postgres", hasDataVolume := false,
        environment := [] }
      (by decide)).1 (by decide)⟩

/-- C5: a thrown transport exception or a non-success remote response in a
create attempt becomes a per-resource failure result whose error field is the
error string (the exception is absorbed by the create function, which always
returns a result); and whenever the inventory fetch succeeds, deploy returns
a summary with one result per resource no matter how the create calls
behave, so processing always continues to the next resource. -/
theorem create_failure_normalized :
    (∀ (db : Aspire.Database) (config : Deployer.DeployConfig) (msg : String)
        (ldb lapp lsvc : Deployer.ApiCall (List Deployer.NamedResource))
        (osvc : Deployer.ApiCall Deployer.CreatedService)
        (oapp : Deployer.ApiCall Deployer.CreatedResource),
      db.type ∈ (["postgres", "mysql", "mongodb", "redis", "sqlserver"] : List String) →
      (Deployer.deployDatabase
          (Deployer.mkTestClient ldb lapp lsvc (Except.error msg) osvc oapp)
          db config).1 =
        { success := false, resourceType := "database", name := db.name,
          error := some msg }) ∧
    (∀ (db : Aspire.Database) (config : Deployer.DeployConfig)
        (resp : Deployer.ApiResponse Deployer.CreatedResource)
        (ldb lapp lsvc : Deployer.ApiCall (List Deployer.NamedResource))
        (osvc : Deployer.ApiCall Deployer.CreatedService)
        (oapp : Deployer.ApiCall Deployer.CreatedResource),
      db.type ∈ (["postgres", "mysql", "mongodb", "redis", "sqlserver"] : List String) →
      ¬(resp.success = true ∧ resp.data.isSome = true) →
      (Deployer.deployDatabase
          (Deployer.mkTestClient ldb lapp lsvc (Except.ok resp) osvc oapp)
          db config).1 =
        { success := false, resourceType := "database", name := db.name,
          error := some (JS.jsOrElseStr resp.error "Unknown error") }) ∧
    (∀ (sv : Deployer.ServiceRef) (config : Deployer.DeployConfig) (msg : String)
        (ldb lapp lsvc : Deployer.ApiCall (List Deployer.NamedResource))
        (odb : Deployer.ApiCall Deployer.CreatedResource)
        (oapp : Deployer.ApiCall Deployer.CreatedResource),
      (Deployer.deployService
          (Deployer.mkTestClient ldb lapp lsvc odb (Except.error msg) oapp)
          sv config).1 =
        { success := false, resourceType := "service", name := sv.name,
          error := some msg }) ∧
    (∀ (sv : Deployer.ServiceRef) (config : Deployer.DeployConfig)
        (resp : Deployer.ApiResponse Deployer.CreatedService)
        (ldb lapp lsvc : Deployer.ApiCall (List Deployer.NamedResource))
        (odb : Deployer.ApiCall Deployer.CreatedResource)
        (oapp : Deployer.ApiCall Deployer.CreatedResource),
      ¬(resp.success = true ∧ resp.data.isSome = true) →
      (Deployer.deployService
          (Deployer.mkTestClient ldb lapp lsvc odb (Except.ok resp) oapp)
          sv config).1 =
        { success := false, resourceType := "service", name := sv.name,
          error := some (JS.jsOrElseStr resp.error "Unknown error") }) ∧
    (∀ (client : Deployer.CoolifyApiClient) (app : Aspire.AspireApp)
        (config : Deployer.DeployConfig) (ex : Deployer.ExistingResources)
        (t0 : List Deployer.ClientCall),
      Deployer.fetchExistingResources client = Except.ok (ex, t0) →
      ∃ (s : Deployer.DeploymentSummary) (tr : List Deployer.ClientCall),
        Deployer.deployToCloudify client app config false = Except.ok (s, tr) ∧
          s.results.length = app.databases.length + app.storage.length +
            app.services.length + app.applications.length) := by
  refine ⟨?_, ?_, ?_, ?_, ?_⟩
  · intro db config msg ldb lapp lsvc osvc oapp hmem
    simp only [List.mem_cons, List.mem_singleton, List.not_mem_nil, or_false] at hmem
    rcases hmem with h | h | h | h | h <;>
      simp [Deployer.deployDatabase, Deployer.mkTestClient,
        Deployer.resultOfOutcome, h]
  · intro db config resp ldb lapp lsvc osvc oapp hmem hns
    simp only [List.mem_cons, List.mem_singleton, List.not_mem_nil, or_false] at hmem
    rcases hmem with h | h | h | h | h <;>
      simp [Deployer.deployDatabase, Deployer.mkTestClient,
        Deployer.resultOfOutcome, h, hns]
  · intro sv config msg ldb lapp lsvc odb oapp
    simp [Deployer.deployService, Deployer.mkTestClient]
  · intro sv config resp ldb lapp lsvc odb oapp hns
    simp [Deployer.deployService, Deployer.mkTestClient, hns]
  · intro client app config ex t0 hfetch
    refine
      ⟨{ results :=
           (Deployer.runSteps (Deployer.deployDatabaseStep client config false (some ex)) app.databases).1 ++
             (Deployer.runSteps (Deployer.deployStorageStep client config false (some ex)) app.storage).1 ++
             (Deployer.runSteps (Deployer.deployServiceStep client config false (some ex)) app.services).1 ++
             (Deployer.runSteps (Deployer.deployApplicationStep client config false (some ex)) app.applications).1,
         successful :=
           (((Deployer.runSteps (Deployer.deployDatabaseStep client config false (some ex)) app.databases).1 ++
             (Deployer.runSteps (Deployer.deployStorageStep client config false (some ex)) app.storage).1 ++
             (Deployer.runSteps (Deployer.deployServiceStep client config false (some ex)) app.services).1 ++
             (Deployer.runSteps (Deployer.deployApplicationStep client config false (some ex)) app.applications).1).filter
               (fun r => r.success && !(JS.optBoolTruthy r.skipped))).length,
         failed :=
           (((Deployer.runSteps (Deployer.deployDatabaseStep client config false (some ex)) app.databases).1 ++
             (Deployer.runSteps (Deployer.deployStorageStep client config false (some ex)) app.storage).1 ++
             (Deployer.runSteps (Deployer.deployServiceStep client config false (some ex)) app.services).1 ++
             (Deployer.runSteps (Deployer.deployApplicationStep client config false (some ex)) app.applications).1).filter
               (fun r => !r.success)).length,
         skipped :=
           (((Deployer.runSteps (Deployer.deployDatabaseStep client config false (some ex)) app.databases).1 ++
             (Deployer.runSteps (Deployer.deployStorageStep client config false (some ex)) app.storage).1 ++
             (Deployer.runSteps (Deployer.deployServiceStep client config false (some ex)) app.services).1 ++
             (Deployer.runSteps (Deployer.deployApplicationStep client config false (some ex)) app.applications).1).filter
               (fun r => JS.optBoolTruthy r.skipped)).length },
        t0 ++ (Deployer.runSteps (Deployer.deployDatabaseStep client config false (some ex)) app.databases).2 ++
          (Deployer.runSteps (Deployer.deployStorageStep client config false (some ex)) app.storage).2 ++
          (Deployer.runSteps (Deployer.deployServiceStep client config false (some ex)) app.services).2 ++
          (Deployer.runSteps (Deployer.deployApplicationStep client config false (some ex)) app.applications).2,
        ?_, ?_⟩
    · unfold Deployer.deployToCloudify
      rw [if_neg (by decide), hfetch]
    · simp [runSteps_fst]
      omega

/-- Witness for C5: a postgres create attempt whose transport throws `boom`
is normalized to a failure result carrying `boom`. -/
theorem create_failure_normalized_witness :
    (("postgres" : String) ∈
      (["postgres", "mysql", "mongodb", "redis", "sqlserver"] : List String)) ∧
    (Deployer.deployDatabase
        (Deployer.mkTestClient (Except.ok { success := true, data := some [] })
          (Except.ok { success := true, data := some [] })
          (Except.ok { success := true, data := some [] })
          (Except.error "boom")
          (Except.error "boom")
          (Except.error "boom"))
        { name := "mydb", type := "postgres", hasDataVolume := false,
          environment := [] }
        { projectUuid := "p", serverUuid := "s", environmentName := "e" }).1 =
      { success := false, resourceType := "database", name := "mydb",
        error := some "boom" } :=
  ⟨by decide,
    create_failure_normalized.1
      { name := "mydb", type := "postgres", hasDataVolume := false,
        environment := [] }
      { projectUuid := "p", serverUuid := "s", environmentName := "e" }
      "boom"
      (Except.ok { success := true, data := some [] })
      (Except.ok { success := true, data := some [] })
      (Except.ok { success := true, data := some [] })
      (Except.error "boom") (Except.error "boom")
      (by decide)⟩

section SummaryProofs

open JS Aspire Deployer

/-- The normalized outcome of a create call keeps the given category and
name, and never marks the result skipped. -/
theorem resultOfOutcome_meta (rt n : String) (call : ClientCall)
    (uuidOf : ApiResponse CreatedResource → Option String)
    (o : ApiCall CreatedResource) :
    (resultOfOutcome rt n call uuidOf o).1.resourceType = rt ∧
      (resultOfOutcome rt n call uuidOf o).1.name = n ∧
      (resultOfOutcome rt n call uuidOf o).1.skipped = none := by
  unfold resultOfOutcome
  cases o with
  | error msg => exact ⟨rfl, rfl, rfl⟩
  | ok response =>
      dsimp only
      split_ifs <;> exact ⟨rfl, rfl, rfl⟩

/-- `deployDatabase` results carry the database category and name, never the
skipped marker. -/
theorem deployDatabase_meta (client : CoolifyApiClient) (db : Database)
    (config : DeployConfig) :
    (deployDatabase client db config).1.resourceType = "database" ∧
      (deployDatabase client db config).1.name = db.name ∧
      (deployDatabase client db config).1.skipped = none := by
  unfold deployDatabase
  dsimp only
  split_ifs <;> first
    | exact resultOfOutcome_meta _ _ _ _ _
    | exact ⟨rfl, rfl, rfl⟩

/-- `deployService` results carry the service category and name, never the
skipped marker. -/
theorem deployService_meta (client : CoolifyApiClient) (sv : ServiceRef)
    (config : DeployConfig) :
    (deployService client sv config).1.resourceType = "service" ∧
      (deployService client sv config).1.name = sv.name ∧
      (deployService client sv config).1.skipped = none := by
  unfold deployService
  dsimp only
  split
  · exact ⟨rfl, rfl, rfl⟩
  · split_ifs <;> exact ⟨rfl, rfl, rfl⟩

/-- `deployApplication` results carry the application category and name,
never the skipped marker. -/
theorem deployApplication_meta (client : CoolifyApiClient)
    (application : Application) (config : DeployConfig) :
    (deployApplication client application config).1.resourceType = "application" ∧
      (deployApplication client application config).1.name = application.name ∧
      (deployApplication client application config).1.skipped = none := by
  unfold deployApplication
  dsimp only
  split
  · split_ifs <;> exact resultOfOutcome_meta _ _ _ _ _
  · exact resultOfOutcome_meta _ _ _ _ _

/-- Database-loop results: category, name, and skipped-implies-success. -/
theorem deployDatabaseStep_meta (client : CoolifyApiClient) (config : DeployConfig)
    (dryRun : Bool) (existing : Option ExistingResources) (db : Database) :
    (deployDatabaseStep client config dryRun existing db).1.resourceType = "database" ∧
      (deployDatabaseStep client config dryRun existing db).1.name = db.name ∧
      (optBoolTruthy (deployDatabaseStep client config dryRun existing db).1.skipped = true →
        (deployDatabaseStep client config dryRun existing db).1.success = true) := by
  unfold deployDatabaseStep
  split
  · exact ⟨rfl, rfl, fun _ => rfl⟩
  · split
    · split
      · exact ⟨rfl, rfl, fun _ => rfl⟩
      · exact ⟨rfl, rfl, fun hk => absurd hk (by simp [optBoolTruthy])⟩
    · rcases deployDatabase_meta client db config with ⟨ha, hb, hc⟩
      exact ⟨ha, hb, fun hk => absurd hk (by simp [hc, optBoolTruthy])⟩

/-- Storage-loop results: category, name, and skipped-implies-success. -/
theorem deployStorageStep_meta (client : CoolifyApiClient) (config : DeployConfig)
    (dryRun : Bool) (existing : Option ExistingResources) (st : StorageService) :
    (deployStorageStep client config dryRun existing st).1.resourceType = "service" ∧
      (deployStorageStep client config dryRun existing st).1.name = st.name ∧
      (optBoolTruthy (deployStorageStep client config dryRun existing st).1.skipped = true →
        (deployStorageStep client config dryRun existing st).1.success = true) := by
  unfold deployStorageStep
  split
  · exact ⟨rfl, rfl, fun _ => rfl⟩
  · split
    · split
      · exact ⟨rfl, rfl, fun _ => rfl⟩
      · exact ⟨rfl, rfl, fun hk => absurd hk (by simp [optBoolTruthy])⟩
    · rcases deployService_meta client { name := st.name, type := st.type } config with ⟨ha, hb, hc⟩
      exact ⟨ha, hb, fun hk => absurd hk (by simp [hc, optBoolTruthy])⟩

/-- Service-loop results: category, name, and skipped-implies-success. -/
theorem deployServiceStep_meta (client : CoolifyApiClient) (config : DeployConfig)
    (dryRun : Bool) (existing : Option ExistingResources) (sv : Service) :
    (deployServiceStep client config dryRun existing sv).1.resourceType = "service" ∧
      (deployServiceStep client config dryRun existing sv).1.name = sv.name ∧
      (optBoolTruthy (deployServiceStep client config dryRun existing sv).1.skipped = true →
        (deployServiceStep client config dryRun existing sv).1.success = true) := by
  unfold deployServiceStep
  split
  · exact ⟨rfl, rfl, fun _ => rfl⟩
  · split
    · split
      · exact ⟨rfl, rfl, fun _ => rfl⟩
      · exact ⟨rfl, rfl, fun hk => absurd hk (by simp [optBoolTruthy])⟩
    · rcases deployService_meta client { name := sv.name, type := sv.type } config with ⟨ha, hb, hc⟩
      exact ⟨ha, hb, fun hk => absurd hk (by simp [hc, optBoolTruthy])⟩

/-- Application-loop results: category, name, and skipped-implies-success. -/
theorem deployApplicationStep_meta (client : CoolifyApiClient) (config : DeployConfig)
    (dryRun : Bool) (existing : Option ExistingResources) (ap : Application) :
    (deployApplicationStep client config dryRun existing ap).1.resourceType =
        "application" ∧
      (deployApplicationStep client config dryRun existing ap).1.name = ap.name ∧
      (optBoolTruthy (deployApplicationStep client config dryRun existing ap).1.skipped =
          true →
        (deployApplicationStep client config dryRun existing ap).1.success = true) := by
  unfold deployApplicationStep
  split
  · exact ⟨rfl, rfl, fun _ => rfl⟩
  · split
    · split
      · exact ⟨rfl, rfl, fun _ => rfl⟩
      · exact ⟨rfl, rfl, fun hk => absurd hk (by simp [optBoolTruthy])⟩
    · rcases deployApplication_meta client ap config with ⟨ha, hb, hc⟩
      exact ⟨ha, hb, fun hk => absurd hk (by simp [hc, optBoolTruthy])⟩

/-- The three aggregate counts partition any result list in which a skipped
result is always a success. -/
theorem count3_partition (l : List DeployResult)
    (h : ∀ r ∈ l, optBoolTruthy r.skipped = true → r.success = true) :
    (l.filter (fun r => r.success && !(optBoolTruthy r.skipped))).length +
        (l.filter (fun r => !r.success)).length +
        (l.filter (fun r => optBoolTruthy r.skipped)).length = l.length := by
  induction l with
  | nil => rfl
  | cons r t ih =>
      have hr := h r (by simp)
      have ht := ih (fun x hx => h x (by simp [hx]))
      cases hsuc : r.success <;> cases hsk : optBoolTruthy r.skipped
      · simp [List.filter_cons, hsuc, hsk]
        omega
      · exact absurd (hr hsk) (by simp [hsuc])
      · simp [List.filter_cons, hsuc, hsk]
        omega
      · simp [List.filter_cons, hsuc, hsk]
        omega
      
end SummaryProofs

/-- C10: every summary that deploy returns (dry-run or not) has exactly one
result per model resource in the fixed category order (with the matching
category tag and name), every skipped result is a success, and the three
aggregate counts partition the result list. -/
theorem deploy_summary_invariants (client : Deployer.CoolifyApiClient)
    (app : Aspire.AspireApp) (config : Deployer.DeployConfig) (dryRun : Bool)
    (s : Deployer.DeploymentSummary) (tr : List Deployer.ClientCall)
    (h : Deployer.deployToCloudify client app config dryRun = Except.ok (s, tr)) :
    (s.results.map (fun r => (r.resourceType, r.name)) =
      app.databases.map (fun d => ("database", d.name)) ++
        app.storage.map (fun st => ("service", st.name)) ++
        app.services.map (fun sv => ("service", sv.name)) ++
        app.applications.map (fun ap => ("application", ap.name))) ∧
    (∀ r ∈ s.results, JS.optBoolTruthy r.skipped = true → r.success = true) ∧
    s.successful + s.failed + s.skipped = s.results.length := by
  obtain ⟨existing, hres, hsucc, hfail, hskip⟩ :
      ∃ existing : Option Deployer.ExistingResources,
        s.results =
          (Deployer.runSteps (Deployer.deployDatabaseStep client config dryRun existing)
            app.databases).1 ++
          (Deployer.runSteps (Deployer.deployStorageStep client config dryRun existing)
            app.storage).1 ++
          (Deployer.runSteps (Deployer.deployServiceStep client config dryRun existing)
            app.services).1 ++
          (Deployer.runSteps (Deployer.deployApplicationStep client config dryRun existing)
            app.applications).1 ∧
        s.successful = (s.results.filter
          (fun r => r.success && !(JS.optBoolTruthy r.skipped))).length ∧
        s.failed = (s.results.filter (fun r => !r.success)).length ∧
        s.skipped = (s.results.filter (fun r => JS.optBoolTruthy r.skipped)).length := by
    unfold Deployer.deployToCloudify at h
    cases dryRun with
    | true =>
        rw [if_pos rfl] at h
        dsimp only at h
        cases h
        exact ⟨none, rfl, rfl, rfl, rfl⟩
    | false =>
        rw [if_neg (by decide)] at h
        cases hf : Deployer.fetchExistingResources client with
        | error e => rw [hf] at h; cases h
        | ok pr =>
            rw [hf] at h
            dsimp only at h
            cases h
            exact ⟨some pr.1, rfl, rfl, rfl, rfl⟩
  have hmem : ∀ r ∈ s.results, JS.optBoolTruthy r.skipped = true → r.success = true := by
    intro r hr
    rw [hres] at hr
    simp only [List.mem_append, runSteps_fst, List.mem_map] at hr
    rcases hr with ((⟨x, _, rfl⟩ | ⟨x, _, rfl⟩) | ⟨x, _, rfl⟩) | ⟨x, _, rfl⟩
    · exact (deployDatabaseStep_meta client config dryRun existing x).2.2
    · exact (deployStorageStep_meta client config dryRun existing x).2.2
    · exact (deployServiceStep_meta client config dryRun existing x).2.2
    · exact (deployApplicationStep_meta client config dryRun existing x).2.2
  refine ⟨?_, hmem, ?_⟩
  · rw [hres]
    simp only [runSteps_fst, List.map_append, List.map_map]
    have e1 := List.map_congr_left
      (l := app.databases)
      (f := (fun r : Deployer.DeployResult => (r.resourceType, r.name)) ∘
        fun x => (Deployer.deployDatabaseStep client config dryRun existing x).1)
      (g := fun d : Aspire.Database => (("database" : String), d.name))
      (fun x _ => by
        have hm := deployDatabaseStep_meta client config dryRun existing x
        simp [Function.comp_apply, hm.1, hm.2.1])
    have e2 := List.map_congr_left
      (l := app.storage)
      (f := (fun r : Deployer.DeployResult => (r.resourceType, r.name)) ∘
        fun x => (Deployer.deployStorageStep client config dryRun existing x).1)
      (g := fun st : Aspire.StorageService => (("service" : String), st.name))
      (fun x _ => by
        have hm := deployStorageStep_meta client config dryRun existing x
        simp [Function.comp_apply, hm.1, hm.2.1])
    have e3 := List.map_congr_left
      (l := app.services)
      (f := (fun r : Deployer.DeployResult => (r.resourceType, r.name)) ∘
        fun x => (Deployer.deployServiceStep client config dryRun existing x).1)
      (g := fun sv : Aspire.Service => (("service" : String), sv.name))
      (fun x _ => by
        have hm := deployServiceStep_meta client config dryRun existing x
        simp [Function.comp_apply, hm.1, hm.2.1])
    have e4 := List.map_congr_left
      (l := app.applications)
      (f := (fun r : Deployer.DeployResult => (r.resourceType, r.name)) ∘
        fun x => (Deployer.deployApplicationStep client config dryRun existing x).1)
      (g := fun ap : Aspire.Application => (("application" : String), ap.name))
      (fun x _ => by
        have hm := deployApplicationStep_meta client config dryRun existing x
        simp [Function.comp_apply, hm.1, hm.2.1])
    rw [e1, e2, e3, e4]
  · rw [hsucc, hfail, hskip]
    exact count3_partition s.results hmem

/-- Witness for C10: a dry run over a model with one database returns the
placeholder summary, which satisfies all three invariants. -/
theorem deploy_summary_invariants_witness :
    (Deployer.deployToCloudify (Deployer.mkTestClient (Except.error "x") (Except.error "x") (Except.error "x") (Except.error "x") (Except.error "x") (Except.error "x")) { databases := [{ name := "d1", type := "postgres", hasDataVolume := false, environment := [] }], services := [], storage := [], applications := [], references := [] } { projectUuid := "p", serverUuid := "s", environmentName := "e" } true =
      Except.ok (({ results := [Deployer.dryRunResult "database" "d1"], successful := 1, failed := 0, skipped := 0 } : Deployer.DeploymentSummary), [])) ∧
    ((({ results := [Deployer.dryRunResult "database" "d1"], successful := 1, failed := 0, skipped := 0 } : Deployer.DeploymentSummary).results.map (fun r => (r.resourceType, r.name)) =
        [(("database" : String), ("d1" : String))]) ∧
      (∀ r ∈ ({ results := [Deployer.dryRunResult "database" "d1"], successful := 1, failed := 0, skipped := 0 } : Deployer.DeploymentSummary).results,
        JS.optBoolTruthy r.skipped = true → r.success = true) ∧
      ({ results := [Deployer.dryRunResult "database" "d1"], successful := 1, failed := 0, skipped := 0 } : Deployer.DeploymentSummary).successful + ({ results := [Deployer.dryRunResult "database" "d1"], successful := 1, failed := 0, skipped := 0 } : Deployer.DeploymentSummary).failed + ({ results := [Deployer.dryRunResult "database" "d1"], successful := 1, failed := 0, skipped := 0 } : Deployer.DeploymentSummary).skipped = ({ results := [Deployer.dryRunResult "database" "d1"], successful := 1, failed := 0, skipped := 0 } : Deployer.DeploymentSummary).results.length) :=
  ⟨by rfl,
    deploy_summary_invariants (Deployer.mkTestClient (Except.error "x") (Except.error "x") (Except.error "x") (Except.error "x") (Except.error "x") (Except.error "x")) { databases := [{ name := "d1", type := "postgres", hasDataVolume := false, environment := [] }], services := [], storage := [], applications := [], references := [] } { projectUuid := "p", serverUuid := "s", environmentName := "e" } true { results := [Deployer.dryRunResult "database" "d1"], successful := 1, failed := 0, skipped := 0 } [] (by rfl)⟩
